import Mathlib

/-!
Verification development for the EK80 datagram demultiplexer
(`echopype/convert/ek80.py`, class `ConvertEK80`).

The Python code is shallowly embedded: the mutable attributes of a
`ConvertEK80` instance become the fields of `State`, the local variables of
`_read_datagrams` become the fields of `LoopState`, and each iteration of the
`while True` loop becomes one application of `step`.  Python exceptions are
modelled by the `PyErr` kind returned next to the (possibly partially
mutated) state, and Python `dict` accumulators become functions into
`Option`, where `none` models a missing key (a `KeyError` on read access).
Timestamps are modelled as microsecond counts; the `np.datetime64(.., ms)`
normalization becomes truncation to milliseconds.
-/

namespace EK80

/-- Channel identifiers: the string keys of the configuration payload. -/
abbrev ChannelId := String

/-- Kinds of Python exceptions the embedded code can raise:
`valueError` models the explicit `ValueError("Parameter ID does not match RAW")`;
`keyError` a failed `dict` key access; `indexError` a failed list index;
`nameError` the `UnboundLocalError` from reading the unassigned local
`current_parameters`; `eofError` the `SimradEOF` raised by `fid.read(1)`
outside the `try` of `_read_datagrams`. -/
inductive PyErr where
  | valueError
  | keyError
  | indexError
  | nameError
  | eofError
deriving DecidableEq

/-- Python list indexing `l[i]`: a negative index counts from the end;
`none` models an `IndexError`. -/
def pyGet {α : Type} (l : List α) (i : Int) : Option α :=
  if 0 ≤ i then l.get? i.toNat
  else if 0 ≤ (l.length : Int) + i then l.get? ((l.length : Int) + i).toNat
  else none

/-- `np.datetime64(timestamp.replace(tzinfo=None), 'ms')`: timestamps are
microsecond counts, normalized by truncation to milliseconds. -/
def normTs (t : Nat) : Nat := t / 1000

/-- Content of an XML parameter datagram (`new_datagram['parameter']`).
`frequency`, `frequency_start` and `frequency_end` are `Option`s because the
code tests `'frequency_start' not in current_parameters` and a missing key
read raises `KeyError`; the remaining fields are accessed unconditionally. -/
structure ParamData where
  channel_id : ChannelId
  frequency : Option Int
  frequency_start : Option Int
  frequency_end : Option Int
  pulse_duration : Int
  pulse_form : Int
  sample_interval : Int
  slope : Int
  transmit_power : Int
deriving DecidableEq

/-- Content of an XML environment datagram (`new_datagram['environment']`);
the field names are those read by `save`. -/
structure EnvData where
  temperature : Int
  depth : Int
  acidity : Int
  salinity : Int
  sound_speed : Int
  water_level_draft : Int
deriving DecidableEq

/-- The per-channel static descriptor held in the configuration payload
(only `transducer_frequency` is read during loading). -/
structure ChannelConfig where
  transducer_frequency : Int
deriving DecidableEq

/-- One buffered RAW datagram as stored in `tmp_datagram_dict`
(the fields of the datagram dict that the commit code reads). -/
structure RawEntry where
  timestamp : Nat
  channel_id : ChannelId
  power : Int
  angle : Int
  complexData : Int
deriving DecidableEq

/-- One typed record produced by the external tokenizer (`RawSimradFile`).
XML datagrams are split by their `subtype` field; `xmlOther` carries an
unknown subtype together with the key list of its payload dict; `tag` is the
explicitly ignored TAG datagram. -/
inductive Datagram where
  | xmlConfiguration (timestamp : Nat) (configuration : List (ChannelId × ChannelConfig))
  | xmlEnvironment (timestamp : Nat) (environment : EnvData)
  | xmlParameter (timestamp : Nat) (parameter : ParamData)
  | xmlOther (timestamp : Nat) (subtypeName : String) (payloadKeys : List String)
  | raw (timestamp : Nat) (channel_id : ChannelId) (power : Int) (angle : Int) (complexData : Int)
  | nme (timestamp : Nat) (nmea_string : String)
  | mru (timestamp : Nat) (heading : Int) (pitch : Int) (roll : Int) (heave : Int)
  | fil (timestamp : Nat) (channel_id : ChannelId) (stage : Nat) (coefficients : Int) (decimation_factor : Int)
  | tag (timestamp : Nat)
deriving DecidableEq

/-- In-place timestamp normalization of a stored datagram
(`self.config_datagram['timestamp'] = np.datetime64(...)`). -/
def Datagram.withNormTs : Datagram → Datagram
  | .xmlConfiguration t c => .xmlConfiguration (normTs t) c
  | .xmlEnvironment t e => .xmlEnvironment (normTs t) e
  | .xmlParameter t p => .xmlParameter (normTs t) p
  | .xmlOther t s ks => .xmlOther (normTs t) s ks
  | .raw t c pw an cx => .raw (normTs t) c pw an cx
  | .nme t m => .nme (normTs t) m
  | .mru t h p r hv => .mru (normTs t) h p r hv
  | .fil t c st co df => .fil (normTs t) c st co df
  | .tag t => .tag (normTs t)

/-- `d[d['subtype']]` seen as a key list: `some` gives `list(...)` of the
subtype-named payload, `none` models the `KeyError` when the datagram dict
has no `subtype` key. -/
def Datagram.subtypeKeys : Datagram → Option (List String)
  | .xmlConfiguration _ cfg => some (cfg.map (fun kv => kv.1))
  | .xmlEnvironment _ _ =>
      some ["temperature", "depth", "acidity", "salinity", "sound_speed", "water_level_draft"]
  | .xmlParameter _ p =>
      some (["channel_id", "frequency"] ++
        (match p.frequency_start with
         | some _ => ["frequency_start", "frequency_end"]
         | none => []) ++
        ["pulse_duration", "pulse_form", "sample_interval", "slope", "transmit_power"])
  | .xmlOther _ _ ks => some ks
  | _ => none

/-- `self.config_datagram['configuration']`: present exactly on a
configuration datagram; `none` models the `KeyError` on any other record. -/
def Datagram.configurationPayload : Datagram → Option (List (ChannelId × ChannelConfig))
  | .xmlConfiguration _ cfg => some cfg
  | _ => none

/-- The per-channel entry of `self.parameters` after initialization:
one list per appended field. -/
structure ParamTable where
  frequency_start : List Int
  frequency_end : List Int
  frequency : List Int
  pulse_duration : List Int
  pulse_form : List Int
  sample_interval : List Int
  slope : List Int
  transmit_power : List Int
  timestamp : List Nat
deriving DecidableEq

/-- The empty `ParamTable` written for every configured channel by
`load_ek80_raw`. -/
def emptyParamTable : ParamTable :=
  ⟨[], [], [], [], [], [], [], [], []⟩

/-- Pointwise update of a `dict` modelled as a function. -/
def updFun {α β : Type} [DecidableEq α] (f : α → β) (k : α) (v : β) : α → β :=
  fun x => if x = k then v else f x

/-- Pointwise update of a nested `dict` (`d[a][b] = v` on a `defaultdict`). -/
def updFun2 {α β γ : Type} [DecidableEq α] [DecidableEq β]
    (f : α → β → Option γ) (a : α) (b : β) (v : γ) : α → β → Option γ :=
  fun x y => if x = a ∧ y = b then some v else f x y

/-- Modelled from the spec: `NMEAData.add_datagram`
(file `convert/utils/nmea_data.py`, absent from the sources) appends the
(timestamp, opaque sentence) pair to the position log (spec section 4.5:
"Position: unconditional append of (timestamp, opaque sentence)"). -/
def addNmea (log : List (Nat × String)) (ts : Nat) (msg : String) : List (Nat × String) :=
  log ++ [(ts, msg)]

/-- The mutable attributes of a `ConvertEK80` instance that the parsing core
touches.  `dict`s keyed by channel id become functions into `Option`;
`mru_data` (a `defaultdict(list)`) becomes its five always-appendable lists. -/
structure State where
  config_datagram : Option Datagram
  ping_data_dict_frequency : ChannelId → Option (Option Int)
  power_dict : ChannelId → Option (List Int)
  angle_dict : ChannelId → Option (List Int)
  complex_dict : ChannelId → Option (List Int)
  ping_time : List Nat
  environment : Option EnvData
  parameters : ChannelId → Option ParamTable
  mru_heading : List Int
  mru_pitch : List Int
  mru_roll : List Int
  mru_heave : List Int
  mru_timestamp : List Nat
  nmea_log : List (Nat × String)
  fil_coeffs : ChannelId → Nat → Option Int
  fil_df : ChannelId → Nat → Option Int
  ch_ids : List ChannelId

/-- The freshly constructed instance (`__init__`). -/
def initState : State where
  config_datagram := none
  ping_data_dict_frequency := fun _ => none
  power_dict := fun _ => none
  angle_dict := fun _ => none
  complex_dict := fun _ => none
  ping_time := []
  environment := none
  parameters := fun _ => none
  mru_heading := []
  mru_pitch := []
  mru_roll := []
  mru_heave := []
  mru_timestamp := []
  nmea_log := []
  fil_coeffs := fun _ _ => none
  fil_df := fun _ _ => none
  ch_ids := []

/-- The local variables of `_read_datagrams` threaded through the loop. -/
structure LoopState where
  s : State
  num_datagrams_parsed : Nat
  tmp_num_ch_per_ping_parsed : Int
  tmp_datagram_dict : List RawEntry
  current_parameters : Option ParamData

/-- Fresh locals at entry of `_read_datagrams`; `current_parameters = none`
models the not-yet-assigned local variable. -/
def mkLS (s : State) : LoopState :=
  { s := s
    num_datagrams_parsed := 0
    tmp_num_ch_per_ping_parsed := 0
    tmp_datagram_dict := []
    current_parameters := none }

/-- The six unconditional appends of the parameter handler
(lines 85-96 of `ek80.py`). -/
def appendRest (tbl : ParamTable) (p : ParamData) (ts : Nat) : ParamTable :=
  { tbl with
    pulse_duration := tbl.pulse_duration ++ [p.pulse_duration]
    pulse_form := tbl.pulse_form ++ [p.pulse_form]
    sample_interval := tbl.sample_interval ++ [p.sample_interval]
    slope := tbl.slope ++ [p.slope]
    transmit_power := tbl.transmit_power ++ [p.transmit_power]
    timestamp := tbl.timestamp ++ [ts] }

/-- Write back the (new) per-channel table. -/
def setParams (s : State) (c : ChannelId) (tbl : ParamTable) : State :=
  { s with parameters := updFun s.parameters c (some tbl) }

/-- The parameter branch of the XML handler (lines 74-96): the appends into
`self.parameters[channel_id]`.  A channel whose table was never initialized
gives `keyError` (the auto-vivified inner `dict` has no `'frequency'` key);
a missing `frequency` (with `frequency_start` absent) or a missing
`frequency_end` (with `frequency_start` present) also gives `keyError`, in
the latter case after `frequency_start` was already appended, mirroring the
statement ordering of the Python code. -/
def stepParamTable (s : State) (p : ParamData) (ts : Nat) : State × Option PyErr :=
  match s.parameters p.channel_id with
  | none => (s, some .keyError)
  | some tbl =>
    match p.frequency_start with
    | none =>
      match p.frequency with
      | none => (s, some .keyError)
      | some f =>
        (setParams s p.channel_id
          (appendRest { tbl with frequency := tbl.frequency ++ [f] } p ts), none)
    | some fs =>
      match p.frequency_end with
      | none =>
        (setParams s p.channel_id
          { tbl with frequency_start := tbl.frequency_start ++ [fs] }, some .keyError)
      | some fe =>
        (setParams s p.channel_id
          (appendRest { tbl with
              frequency_start := tbl.frequency_start ++ [fs]
              frequency_end := tbl.frequency_end ++ [fe] } p ts), none)

/-- The commit loop (lines 119-123): `for i, ch_id in enumerate(self.ch_ids)`
appending `tmp_datagram_dict[i]` sample payloads to the per-channel output
dicts; a missing buffer index is `indexError`, a missing dict entry is
`keyError`, both leaving the already performed appends in place. -/
def commitLoop (s : State) (chs : List ChannelId) (i : Nat) (buf : List RawEntry) :
    State × Option PyErr :=
  match chs with
  | [] => (s, none)
  | ch :: rest =>
    match pyGet buf (Int.ofNat i) with
    | none => (s, some .indexError)
    | some d =>
      match s.power_dict ch with
      | none => (s, some .keyError)
      | some pl =>
        let s1 : State := { s with power_dict := updFun s.power_dict ch (some (pl ++ [d.power])) }
        match s1.angle_dict ch with
        | none => (s1, some .keyError)
        | some al =>
          let s2 : State := { s1 with angle_dict := updFun s1.angle_dict ch (some (al ++ [d.angle])) }
          match s2.complex_dict ch with
          | none => (s2, some .keyError)
          | some cl =>
            let s3 : State :=
              { s2 with complex_dict := updFun s2.complex_dict ch (some (cl ++ [d.complexData])) }
            commitLoop s3 rest (i + 1) buf

/-- The RAW handler (lines 98-123).  Reading the unassigned local
`current_parameters` is `nameError`; the channel-pairing check raises
`valueError`; first-channel arrival resets counter and buffer; the commit
test compares the incoming channel id and `ch_ids[counter]` against
`ch_ids[-1]`. -/
def stepRaw (ls : LoopState) (ts : Nat) (c : ChannelId) (pw an cx : Int) :
    LoopState × Option PyErr :=
  match ls.current_parameters with
  | none => (ls, some .nameError)
  | some cp =>
    if cp.channel_id ≠ c then (ls, some .valueError)
    else
      match pyGet ls.s.ch_ids 0 with
      | none => (ls, some .indexError)
      | some ch0 =>
        let cnt1 : Int :=
          (if c = ch0 then -1 else ls.tmp_num_ch_per_ping_parsed) + 1
        let buf1 : List RawEntry :=
          (if c = ch0 then [] else ls.tmp_datagram_dict) ++ [⟨ts, c, pw, an, cx⟩]
        let ls1 : LoopState :=
          { ls with tmp_num_ch_per_ping_parsed := cnt1, tmp_datagram_dict := buf1 }
        match pyGet ls.s.ch_ids cnt1 with
        | none => (ls1, some .indexError)
        | some chAt =>
          match pyGet ls.s.ch_ids (-1) with
          | none => (ls1, some .indexError)
          | some chLast =>
            if c = chLast ∧ chAt = chLast then
              match pyGet buf1 0 with
              | none => (ls1, some .indexError)
              | some first =>
                let s1 : State := { ls.s with ping_time := ls.s.ping_time ++ [first.timestamp] }
                let r := commitLoop s1 ls.s.ch_ids 0 buf1
                ({ ls1 with s := r.1 }, r.2)
            else (ls1, none)

/-- One iteration of the `while True` loop of `_read_datagrams`: count the
datagram, normalize its timestamp, dispatch on the type tag.  Unhandled tags
(`TAG`, XML of other subtypes, a mid-stream configuration datagram) fall
through with no effect. -/
def step (ls0 : LoopState) (d : Datagram) : LoopState × Option PyErr :=
  let ls : LoopState := { ls0 with num_datagrams_parsed := ls0.num_datagrams_parsed + 1 }
  match d with
  | .xmlConfiguration _ _ => (ls, none)
  | .xmlEnvironment _ env =>
    ({ ls with s := { ls.s with environment := some env } }, none)
  | .xmlParameter ts p =>
    let ls1 : LoopState := { ls with current_parameters := some p }
    let r := stepParamTable ls1.s p (normTs ts)
    ({ ls1 with s := r.1 }, r.2)
  | .xmlOther _ _ _ => (ls, none)
  | .raw ts c pw an cx => stepRaw ls (normTs ts) c pw an cx
  | .nme ts msg =>
    ({ ls with s := { ls.s with nmea_log := addNmea ls.s.nmea_log (normTs ts) msg } }, none)
  | .mru ts hd pt rl hv =>
    ({ ls with s := { ls.s with
        mru_heading := ls.s.mru_heading ++ [hd]
        mru_pitch := ls.s.mru_pitch ++ [pt]
        mru_roll := ls.s.mru_roll ++ [rl]
        mru_heave := ls.s.mru_heave ++ [hv]
        mru_timestamp := ls.s.mru_timestamp ++ [normTs ts] } }, none)
  | .fil _ c st co df =>
    ({ ls with s := { ls.s with
        fil_coeffs := updFun2 ls.s.fil_coeffs c st co
        fil_df := updFun2 ls.s.fil_df c st df } }, none)
  | .tag _ => (ls, none)

/-- The datagram loop: process records in order until the list is exhausted
(`SimradEOF` caught, normal return) or an exception escapes (the run stops
with the state at the raise). -/
def runLoop (ls : LoopState) : List Datagram → LoopState × Option PyErr
  | [] => (ls, none)
  | d :: ds =>
    match step ls d with
    | (ls1, none) => runLoop ls1 ds
    | (ls1, some e) => (ls1, some e)

/-- `_read_datagrams`: fresh locals, then the loop; the locals are discarded
on return. -/
def readDatagrams (s : State) (stream : List Datagram) : State × Option PyErr :=
  let r := runLoop (mkLS s) stream
  (r.1.s, r.2)

/-- The per-channel initialization loop of `load_ek80_raw` (lines 165-182):
for each channel id, create the `ping_data_dict` entry, read
`config_datagram['configuration'][ch_id]['transducer_frequency']`
(a `KeyError` when the stored first record has no `configuration` payload or
the channel id is not one of its keys), then initialize the output dicts and
the empty parameter table. -/
def initChannelsLoop (cfgOpt : Option (List (ChannelId × ChannelConfig))) (s : State) :
    List ChannelId → State × Option PyErr
  | [] => (s, none)
  | ch :: rest =>
    let s1 : State :=
      { s with ping_data_dict_frequency := updFun s.ping_data_dict_frequency ch (some none) }
    match cfgOpt with
    | none => (s1, some .keyError)
    | some cfg =>
      match cfg.lookup ch with
      | none => (s1, some .keyError)
      | some cc =>
        let s2 : State :=
          { s1 with
            ping_data_dict_frequency :=
              updFun s1.ping_data_dict_frequency ch (some (some cc.transducer_frequency))
            power_dict := updFun s1.power_dict ch (some [])
            angle_dict := updFun s1.angle_dict ch (some [])
            complex_dict := updFun s1.complex_dict ch (some [])
            parameters := updFun s1.parameters ch (some emptyParamTable) }
        initChannelsLoop cfgOpt s2 rest

/-- `load_ek80_raw` for a single file (lines 158-185): read the first record
as the configuration datagram, normalize its timestamp, take
`list(config_datagram[config_datagram['subtype']])` as the channel-id list,
initialize per-channel storage, then hand the rest of the stream to
`_read_datagrams`.  An empty stream models `fid.read(1)` raising
`SimradEOF`, which is not caught here. -/
def loadFile (s : State) (stream : List Datagram) : State × Option PyErr :=
  match stream with
  | [] => (s, some .eofError)
  | first :: rest =>
    let firstN := first.withNormTs
    let s0 : State := { s with config_datagram := some firstN }
    match firstN.subtypeKeys with
    | none => (s0, some .keyError)
    | some keys =>
      let s1 : State := { s0 with ch_ids := keys }
      let r := initChannelsLoop firstN.configurationPayload s1 keys
      match r.2 with
      | some e => (r.1, some e)
      | none => readDatagrams r.1 rest

/-- `load_ek80_raw` over the list of raw files: each file is loaded in turn
against the accumulated state; an exception aborts the remaining files. -/
def loadEk80Raw (s : State) : List (List Datagram) → State × Option PyErr
  | [] => (s, none)
  | f :: fs =>
    match loadFile s f with
    | (s1, none) => loadEk80Raw s1 fs
    | (s1, some e) => (s1, some e)

/-! ### Derived notions used to state the claims -/

/-- Whether a datagram is a RAW (data) record. -/
def Datagram.isRawRecord : Datagram → Bool
  | .raw _ _ _ _ _ => true
  | _ => false

/-- Number of data records in a stream (the `N` of the spec). -/
def countRaw (stream : List Datagram) : Nat :=
  (stream.filter Datagram.isRawRecord).length

/-- Whether a datagram is a parameter record for channel `c`. -/
def isParamFor (c : ChannelId) : Datagram → Bool
  | .xmlParameter _ p => p.channel_id == c
  | _ => false

/-- Whether a datagram is a parameter record for channel `c` without
`frequency_start`. -/
def isParamForNoStart (c : ChannelId) : Datagram → Bool
  | .xmlParameter _ p => p.channel_id == c && p.frequency_start.isNone
  | _ => false

/-- Whether a datagram is a parameter record for channel `c` carrying
`frequency_start`. -/
def isParamForStart (c : ChannelId) : Datagram → Bool
  | .xmlParameter _ p => p.channel_id == c && p.frequency_start.isSome
  | _ => false

/-- Number of parameter records for channel `c` in a stream. -/
def countParamsFor (c : ChannelId) (stream : List Datagram) : Nat :=
  (stream.filter (isParamFor c)).length

/-- Number of parameter records for channel `c` without `frequency_start`. -/
def countParamsNoStart (c : ChannelId) (stream : List Datagram) : Nat :=
  (stream.filter (isParamForNoStart c)).length

/-- Number of parameter records for channel `c` with `frequency_start`. -/
def countParamsStart (c : ChannelId) (stream : List Datagram) : Nat :=
  (stream.filter (isParamForStart c)).length

/-- A parameter record carries the fields the handler will need:
`frequency` when `frequency_start` is absent, `frequency_end` when it is
present (the spec's "either `frequency` or the pair"). -/
abbrev freqWf (p : ParamData) : Prop :=
  (p.frequency_start = none → p.frequency ≠ none) ∧
  (p.frequency_start ≠ none → p.frequency_end ≠ none)

/-- Every configured channel has its four per-channel stores initialized,
as `load_ek80_raw` leaves them. -/
abbrev GoodDicts (s : State) : Prop :=
  ∀ c ∈ s.ch_ids, (s.parameters c).isSome ∧ (s.power_dict c).isSome ∧
    (s.angle_dict c).isSome ∧ (s.complex_dict c).isSome

/-- For every configured channel, the power, angle and complex sequences
exist and all have the length of the committed ping-time list. -/
abbrev SyncedDicts (s : State) : Prop :=
  ∀ c ∈ s.ch_ids, (s.power_dict c).isSome ∧ (s.angle_dict c).isSome ∧
    (s.complex_dict c).isSome ∧
    ((s.power_dict c).getD []).length = s.ping_time.length ∧
    ((s.angle_dict c).getD []).length = s.ping_time.length ∧
    ((s.complex_dict c).getD []).length = s.ping_time.length

/-- The accumulators named by the dispatch contract: configuration,
per-channel frequency metadata, ping outputs (ping times plus the three
sample dicts), environment snapshot, parameter sequences, motion buffer,
position log, filter tables, channel-id list. -/
inductive Accum where
  | config
  | pingFreq
  | pingOut
  | envSnap
  | params
  | motion
  | position
  | filt
  | chans
deriving DecidableEq

/-- Equality of one accumulator between two states. -/
def accumEq (a : Accum) (s t : State) : Prop :=
  match a with
  | .config => t.config_datagram = s.config_datagram
  | .pingFreq => t.ping_data_dict_frequency = s.ping_data_dict_frequency
  | .pingOut => t.ping_time = s.ping_time ∧ t.power_dict = s.power_dict ∧
      t.angle_dict = s.angle_dict ∧ t.complex_dict = s.complex_dict
  | .envSnap => t.environment = s.environment
  | .params => t.parameters = s.parameters
  | .motion => t.mru_heading = s.mru_heading ∧ t.mru_pitch = s.mru_pitch ∧
      t.mru_roll = s.mru_roll ∧ t.mru_heave = s.mru_heave ∧
      t.mru_timestamp = s.mru_timestamp
  | .position => t.nmea_log = s.nmea_log
  | .filt => t.fil_coeffs = s.fil_coeffs ∧ t.fil_df = s.fil_df
  | .chans => t.ch_ids = s.ch_ids

/-- The single accumulator a record's handler may touch; `none` for the
unhandled kinds (TAG, XML of unknown subtype, mid-stream configuration). -/
def touched : Datagram → Option Accum
  | .xmlEnvironment _ _ => some .envSnap
  | .xmlParameter _ _ => some .params
  | .raw _ _ _ _ _ => some .pingOut
  | .nme _ _ => some .position
  | .mru _ _ _ _ _ => some .motion
  | .fil _ _ _ _ _ => some .filt
  | _ => none

/-- One parameter/data pair per channel of `cs`, data immediately preceded
by its matching parameter record (arbitrary timestamps and payloads). -/
inductive PairSeq : List ChannelId → List Datagram → Prop
  | nil : PairSeq [] []
  | cons (c : ChannelId) (tp td : Nat) (p : ParamData) (pw an cx : Int)
      (rest : List ChannelId) (s : List Datagram) :
      p.channel_id = c → freqWf p → PairSeq rest s →
      PairSeq (c :: rest) (Datagram.xmlParameter tp p :: Datagram.raw td c pw an cx :: s)

/-- `n` consecutive full cycles in configured channel order. -/
inductive CyclesSeq (chs : List ChannelId) : Nat → List Datagram → Prop
  | nil : CyclesSeq chs 0 []
  | cons (n : Nat) (s t : List Datagram) : PairSeq chs s → CyclesSeq chs n t →
      CyclesSeq chs (n + 1) (s ++ t)

/-! ### Concrete fixtures -/

/-- A parameter payload for channel `c` carrying a single `frequency`. -/
def mkParam (c : ChannelId) (f : Int) : ParamData :=
  ⟨c, some f, none, none, 1, 0, 2, 3, 100⟩

/-- A parameter payload for channel `c` carrying a frequency start/end pair. -/
def mkParamFS (c : ChannelId) (fs fe : Int) : ParamData :=
  ⟨c, none, some fs, some fe, 1, 0, 2, 3, 100⟩

/-- A two-channel configuration record (channels A, B in cycle order). -/
def cfgAB : Datagram := .xmlConfiguration 0 [("A", ⟨38000⟩), ("B", ⟨120000⟩)]

/-- The instance state right after loading the two-channel configuration. -/
def sAB : State := (loadFile initState [cfgAB]).1

/-- A three-channel configuration record (channels A, B, C in cycle order). -/
def cfgABC : Datagram := .xmlConfiguration 0 [("A", ⟨38000⟩), ("B", ⟨120000⟩), ("C", ⟨200000⟩)]

/-- The instance state right after loading the three-channel configuration. -/
def sABC : State := (loadFile initState [cfgABC]).1

/-- Spec scenario A: parameter(A), data(A), parameter(B), data(B). -/
def scenarioA : List Datagram :=
  [.xmlParameter 1000 (mkParam "A" 38000), .raw 2000 "A" 10 11 12,
   .xmlParameter 3000 (mkParam "B" 120000), .raw 4000 "B" 20 21 22]

/-- Spec scenario C: parameter(A), data(A), parameter(B), data(A). -/
def scenarioC : List Datagram :=
  [.xmlParameter 1000 (mkParam "A" 38000), .raw 2000 "A" 10 11 12,
   .xmlParameter 3000 (mkParam "B" 120000), .raw 4000 "A" 20 21 22]

/-- A stream on channels [A, B, C] whose sixth record triggers a complete,
error-free commit while the cycle buffer holds channel ids [A, C, C]. -/
def c1stream : List Datagram :=
  [.xmlParameter 1000 (mkParam "A" 1), .raw 2000 "A" 10 11 12,
   .xmlParameter 3000 (mkParam "C" 3), .raw 4000 "C" 30 31 32,
   .xmlParameter 5000 (mkParam "C" 3), .raw 6000 "C" 40 41 42]

/-- The loop state after processing one parameter record for channel A on
the loaded two-channel state. -/
def lsA : LoopState := (runLoop (mkLS sAB) [.xmlParameter 1000 (mkParam "A" 38000)]).1

/-- A state whose parameter table for channel X is initialized although X is
not a member of the configured channel list (used to exercise the absence of
membership validation in the parameter handler). -/
def sX : State := { sAB with parameters := updFun sAB.parameters "X" (some emptyParamTable) }

/-! ### Basic lemmas about the embedding -/

theorem updFun_self {α β : Type} [DecidableEq α] (f : α → β) (k : α) (v : β) :
    updFun f k v k = v := by
  simp [updFun]

theorem updFun_ne {α β : Type} [DecidableEq α] (f : α → β) (k : α) (v : β) (x : α)
    (h : x ≠ k) : updFun f k v x = f x := by
  simp [updFun, h]

theorem pyGet_ofNat {α : Type} (l : List α) (n : Nat) : pyGet l (Int.ofNat n) = l.get? n := by
  simp [pyGet]

theorem pyGet_zero {α : Type} (l : List α) : pyGet l 0 = l.get? 0 := by
  simp [pyGet]

theorem pyGet_neg_one {α : Type} (l : List α) : pyGet l (-1) = l.getLast? := by
  cases l with
  | nil => simp [pyGet]
  | cons a t =>
    have h1 : ¬ (0 : Int) ≤ -1 := by decide
    have h2 : (0 : Int) ≤ ((a :: t).length : Int) + -1 := by
      simp [List.length_cons]
    have h3 : (((a :: t).length : Int) + -1).toNat = t.length := by
      simp [List.length_cons]
    rw [pyGet, if_neg h1, if_pos h2, h3, List.getLast?_eq_get?]
    simp [List.length_cons]

theorem runLoop_cons_ok {ls ls1 : LoopState} {d : Datagram} {ds : List Datagram}
    (h : step ls d = (ls1, none)) : runLoop ls (d :: ds) = runLoop ls1 ds := by
  simp [runLoop, h]

theorem runLoop_cons_err {ls ls1 : LoopState} {d : Datagram} {ds : List Datagram} {e : PyErr}
    (h : step ls d = (ls1, some e)) : runLoop ls (d :: ds) = (ls1, some e) := by
  simp [runLoop, h]

theorem runLoop_append_ok {ls ls1 : LoopState} {xs : List Datagram} (ys : List Datagram)
    (h : runLoop ls xs = (ls1, none)) : runLoop ls (xs ++ ys) = runLoop ls1 ys := by
  induction xs generalizing ls with
  | nil =>
    simp [runLoop] at h
    simp [h]
  | cons d ds ih =>
    rcases hs : step ls d with ⟨ls2, e⟩
    cases e with
    | none =>
      rw [runLoop_cons_ok hs] at h
      rw [List.cons_append, runLoop_cons_ok hs]
      exact ih h
    | some e0 =>
      rw [runLoop_cons_err hs] at h
      exact absurd (congrArg Prod.snd h) (by simp)

theorem runLoop_append_err {ls ls1 : LoopState} {xs : List Datagram} {e : PyErr}
    (ys : List Datagram) (h : runLoop ls xs = (ls1, some e)) :
    runLoop ls (xs ++ ys) = (ls1, some e) := by
  induction xs generalizing ls with
  | nil =>
    simp [runLoop] at h
  | cons d ds ih =>
    rcases hs : step ls d with ⟨ls2, e2⟩
    cases e2 with
    | none =>
      rw [runLoop_cons_ok hs] at h
      rw [List.cons_append, runLoop_cons_ok hs]
      exact ih h
    | some e0 =>
      rw [runLoop_cons_err hs] at h
      rw [List.cons_append, runLoop_cons_err hs]
      rw [Prod.mk.injEq] at h
      rw [h.1, h.2]

/-! ### Characterization of the parameter handler -/

theorem stepParamTable_ok (s : State) (p : ParamData) (ts : Nat) (tbl : ParamTable)
    (h : s.parameters p.channel_id = some tbl) (hw : freqWf p) :
    ∃ tbl1, stepParamTable s p ts = (setParams s p.channel_id tbl1, none) ∧
      tbl1.pulse_duration = tbl.pulse_duration ++ [p.pulse_duration] ∧
      tbl1.pulse_form = tbl.pulse_form ++ [p.pulse_form] ∧
      tbl1.sample_interval = tbl.sample_interval ++ [p.sample_interval] ∧
      tbl1.slope = tbl.slope ++ [p.slope] ∧
      tbl1.transmit_power = tbl.transmit_power ++ [p.transmit_power] ∧
      tbl1.timestamp = tbl.timestamp ++ [ts] ∧
      ((p.frequency_start = none ∧ tbl1.frequency_start = tbl.frequency_start ∧
        tbl1.frequency_end = tbl.frequency_end ∧
        ∃ f, p.frequency = some f ∧ tbl1.frequency = tbl.frequency ++ [f]) ∨
       (∃ fs fe, p.frequency_start = some fs ∧ p.frequency_end = some fe ∧
        tbl1.frequency = tbl.frequency ∧
        tbl1.frequency_start = tbl.frequency_start ++ [fs] ∧
        tbl1.frequency_end = tbl.frequency_end ++ [fe])) := by
  unfold stepParamTable
  rw [h]
  cases hfs : p.frequency_start with
  | none =>
    cases hf : p.frequency with
    | none => exact absurd hf (hw.1 hfs)
    | some f =>
      exact ⟨_, rfl, rfl, rfl, rfl, rfl, rfl, rfl,
        Or.inl ⟨rfl, rfl, rfl, f, rfl, rfl⟩⟩
  | some fs =>
    cases hfe : p.frequency_end with
    | none => exact absurd hfe (hw.2 (by simp [hfs]))
    | some fe =>
      exact ⟨_, rfl, rfl, rfl, rfl, rfl, rfl, rfl,
        Or.inr ⟨fs, fe, rfl, rfl, rfl, rfl, rfl⟩⟩

theorem stepParamTable_ok_char (s : State) (p : ParamData) (ts : Nat) (s2 : State)
    (h : stepParamTable s p ts = (s2, none)) :
    ∃ tbl, s.parameters p.channel_id = some tbl ∧
      ((p.frequency_start = none ∧ ∃ f, p.frequency = some f ∧
        s2 = setParams s p.channel_id
          (appendRest { tbl with frequency := tbl.frequency ++ [f] } p ts)) ∨
       (∃ fs fe, p.frequency_start = some fs ∧ p.frequency_end = some fe ∧
        s2 = setParams s p.channel_id
          (appendRest { tbl with
              frequency_start := tbl.frequency_start ++ [fs]
              frequency_end := tbl.frequency_end ++ [fe] } p ts))) := by
  unfold stepParamTable at h
  cases hp : s.parameters p.channel_id with
  | none => rw [hp] at h; simp at h
  | some tbl =>
    rw [hp] at h
    cases hfs : p.frequency_start with
    | none =>
      rw [hfs] at h
      cases hf : p.frequency with
      | none => rw [hf] at h; simp at h
      | some f =>
        rw [hf] at h
        rw [Prod.mk.injEq] at h
        exact ⟨tbl, rfl, Or.inl ⟨rfl, f, rfl, h.1.symm⟩⟩
    | some fs =>
      rw [hfs] at h
      cases hfe : p.frequency_end with
      | none => rw [hfe] at h; simp at h
      | some fe =>
        rw [hfe] at h
        rw [Prod.mk.injEq] at h
        exact ⟨tbl, rfl, Or.inr ⟨fs, fe, rfl, rfl, h.1.symm⟩⟩

/-- The parameter branch of `step`, as a plain equation. -/
theorem step_param_eq (ls : LoopState) (ts : Nat) (p : ParamData) :
    step ls (.xmlParameter ts p) =
      (⟨(stepParamTable ls.s p (normTs ts)).1, ls.num_datagrams_parsed + 1,
        ls.tmp_num_ch_per_ping_parsed, ls.tmp_datagram_dict, some p⟩,
       (stepParamTable ls.s p (normTs ts)).2) := rfl

/-! ### Characterization of the RAW handler -/

theorem stepRaw_noParam (ls : LoopState) (ts : Nat) (c : ChannelId) (pw an cx : Int)
    (h : ls.current_parameters = none) :
    stepRaw ls ts c pw an cx = (ls, some PyErr.nameError) := by
  unfold stepRaw
  rw [h]

theorem stepRaw_mismatch (ls : LoopState) (ts : Nat) (c : ChannelId) (pw an cx : Int)
    (cp : ParamData) (h : ls.current_parameters = some cp) (hne : cp.channel_id ≠ c) :
    stepRaw ls ts c pw an cx = (ls, some PyErr.valueError) := by
  unfold stepRaw
  rw [h]
  simp [hne]

theorem stepRaw_no_commit (ls : LoopState) (ts : Nat) (c : ChannelId) (pw an cx : Int)
    (cp : ParamData) (ch0 chAt chLast : ChannelId)
    (hcp : ls.current_parameters = some cp) (hc : cp.channel_id = c)
    (h0 : pyGet ls.s.ch_ids 0 = some ch0)
    (hAt : pyGet ls.s.ch_ids
      ((if c = ch0 then -1 else ls.tmp_num_ch_per_ping_parsed) + 1) = some chAt)
    (hLast : pyGet ls.s.ch_ids (-1) = some chLast)
    (hnc : ¬(c = chLast ∧ chAt = chLast)) :
    stepRaw ls ts c pw an cx =
      ({ ls with
          tmp_num_ch_per_ping_parsed :=
            (if c = ch0 then -1 else ls.tmp_num_ch_per_ping_parsed) + 1
          tmp_datagram_dict :=
            (if c = ch0 then [] else ls.tmp_datagram_dict) ++ [⟨ts, c, pw, an, cx⟩] },
       none) := by
  unfold stepRaw
  rw [hcp]
  simp only [hc, ne_eq, not_true_eq_false, if_false, h0, hAt, hLast, hnc, if_neg hnc]

theorem stepRaw_commit (ls : LoopState) (ts : Nat) (c : ChannelId) (pw an cx : Int)
    (cp : ParamData) (ch0 chAt chLast : ChannelId) (first : RawEntry)
    (hcp : ls.current_parameters = some cp) (hc : cp.channel_id = c)
    (h0 : pyGet ls.s.ch_ids 0 = some ch0)
    (hAt : pyGet ls.s.ch_ids
      ((if c = ch0 then -1 else ls.tmp_num_ch_per_ping_parsed) + 1) = some chAt)
    (hLast : pyGet ls.s.ch_ids (-1) = some chLast)
    (hcond : c = chLast ∧ chAt = chLast)
    (hfirst : pyGet ((if c = ch0 then [] else ls.tmp_datagram_dict) ++ [⟨ts, c, pw, an, cx⟩]) 0
      = some first) :
    stepRaw ls ts c pw an cx =
      ({ ls with
          s := (commitLoop { ls.s with ping_time := ls.s.ping_time ++ [first.timestamp] }
                 ls.s.ch_ids 0
                 ((if c = ch0 then [] else ls.tmp_datagram_dict) ++ [⟨ts, c, pw, an, cx⟩])).1
          tmp_num_ch_per_ping_parsed :=
            (if c = ch0 then -1 else ls.tmp_num_ch_per_ping_parsed) + 1
          tmp_datagram_dict :=
            (if c = ch0 then [] else ls.tmp_datagram_dict) ++ [⟨ts, c, pw, an, cx⟩] },
       (commitLoop { ls.s with ping_time := ls.s.ping_time ++ [first.timestamp] }
         ls.s.ch_ids 0
         ((if c = ch0 then [] else ls.tmp_datagram_dict) ++ [⟨ts, c, pw, an, cx⟩])).2) := by
  unfold stepRaw
  rw [hcp]
  simp only [hc, ne_eq, not_true_eq_false, if_false, h0, hAt, hLast, if_pos hcond, hfirst]

/-! ### Characterization of the commit loop -/

/-- The commit loop touches only the three sample dicts: every other field,
`ping_time` included, is preserved on every path. -/
theorem commitLoop_frame (chs : List ChannelId) (s : State) (i : Nat) (buf : List RawEntry) :
    (commitLoop s chs i buf).1.config_datagram = s.config_datagram ∧
    (commitLoop s chs i buf).1.ping_data_dict_frequency = s.ping_data_dict_frequency ∧
    (commitLoop s chs i buf).1.ping_time = s.ping_time ∧
    (commitLoop s chs i buf).1.environment = s.environment ∧
    (commitLoop s chs i buf).1.parameters = s.parameters ∧
    (commitLoop s chs i buf).1.mru_heading = s.mru_heading ∧
    (commitLoop s chs i buf).1.mru_pitch = s.mru_pitch ∧
    (commitLoop s chs i buf).1.mru_roll = s.mru_roll ∧
    (commitLoop s chs i buf).1.mru_heave = s.mru_heave ∧
    (commitLoop s chs i buf).1.mru_timestamp = s.mru_timestamp ∧
    (commitLoop s chs i buf).1.nmea_log = s.nmea_log ∧
    (commitLoop s chs i buf).1.fil_coeffs = s.fil_coeffs ∧
    (commitLoop s chs i buf).1.fil_df = s.fil_df ∧
    (commitLoop s chs i buf).1.ch_ids = s.ch_ids := by
  induction chs generalizing s i with
  | nil => simp [commitLoop]
  | cons ch rest ih =>
    unfold commitLoop
    cases pyGet buf (Int.ofNat i) with
    | none => simp
    | some d =>
      cases s.power_dict ch with
      | none => simp
      | some pl =>
        dsimp only
        cases s.angle_dict ch with
        | none => simp
        | some al =>
          dsimp only
          cases s.complex_dict ch with
          | none => simp
          | some cl =>
            dsimp only
            exact ih _ (i + 1)

/-- The commit loop succeeds when the buffer is long enough and every
iterated channel has its three sample dicts present. -/
theorem commitLoop_ok (chs : List ChannelId) (s : State) (i : Nat) (buf : List RawEntry)
    (hlen : i + chs.length ≤ buf.length)
    (hd : ∀ c ∈ chs, (s.power_dict c).isSome ∧ (s.angle_dict c).isSome ∧
      (s.complex_dict c).isSome) :
    (commitLoop s chs i buf).2 = none := by
  induction chs generalizing s i with
  | nil => simp [commitLoop]
  | cons ch rest ih =>
    unfold commitLoop
    have hi : i < buf.length := by
      simp [List.length_cons] at hlen
      omega
    rw [pyGet_ofNat, List.get?_eq_get hi]
    obtain ⟨hp, ha, hc⟩ := hd ch (List.mem_cons_self ch rest)
    obtain ⟨pl, hpl⟩ := Option.isSome_iff_exists.1 hp
    obtain ⟨al, hal⟩ := Option.isSome_iff_exists.1 ha
    obtain ⟨cl, hcl⟩ := Option.isSome_iff_exists.1 hc
    rw [hpl]
    dsimp only
    rw [hal]
    dsimp only
    rw [hcl]
    dsimp only
    apply ih
    · simp [List.length_cons] at hlen
      omega
    · intro c hcm
      refine ⟨?_, ?_, ?_⟩ <;>
      · by_cases hce : c = ch
        · subst hce
          simp [updFun]
        · simp only [updFun, if_neg hce]
          first
            | exact (hd c (List.mem_cons_of_mem ch hcm)).1
            | exact (hd c (List.mem_cons_of_mem ch hcm)).2.1
            | exact (hd c (List.mem_cons_of_mem ch hcm)).2.2

/-- When the commit loop over a duplicate-free channel list succeeds, every
iterated channel receives exactly one new element in each of its three
sample lists, every other channel's lists are untouched, and `ping_time` is
untouched. -/
theorem commitLoop_spec (chs : List ChannelId) (s : State) (i : Nat) (buf : List RawEntry)
    (s1 : State) (hnd : chs.Nodup) (h : commitLoop s chs i buf = (s1, none)) :
    s1.ping_time = s.ping_time ∧
    (∀ c, c ∉ chs → s1.power_dict c = s.power_dict c ∧ s1.angle_dict c = s.angle_dict c ∧
      s1.complex_dict c = s.complex_dict c) ∧
    (∀ c ∈ chs, ∃ lp la lc x y z, s.power_dict c = some lp ∧ s.angle_dict c = some la ∧
      s.complex_dict c = some lc ∧ s1.power_dict c = some (lp ++ [x]) ∧
      s1.angle_dict c = some (la ++ [y]) ∧ s1.complex_dict c = some (lc ++ [z])) := by
  induction chs generalizing s i with
  | nil =>
    simp [commitLoop] at h
    subst h
    exact ⟨rfl, fun c _ => ⟨rfl, rfl, rfl⟩, fun c hc => absurd hc (List.not_mem_nil c)⟩
  | cons ch rest ih =>
    unfold commitLoop at h
    cases hbg : pyGet buf (Int.ofNat i) with
    | none => rw [hbg] at h; simp at h
    | some d =>
      rw [hbg] at h
      cases hpl : s.power_dict ch with
      | none => rw [hpl] at h; simp at h
      | some pl =>
        rw [hpl] at h
        dsimp only at h
        cases hal : s.angle_dict ch with
        | none => rw [hal] at h; simp at h
        | some al =>
          rw [hal] at h
          dsimp only at h
          cases hcl : s.complex_dict ch with
          | none => rw [hcl] at h; simp at h
          | some cl =>
            rw [hcl] at h
            dsimp only at h
            have hch : ch ∉ rest := (List.nodup_cons.1 hnd).1
            obtain ⟨hping, hout, hin⟩ := ih _ (i + 1) (List.nodup_cons.1 hnd).2 h
            refine ⟨hping, ?_, ?_⟩
            · intro c hcm
              have hcch : c ≠ ch := fun he => hcm (he ▸ List.mem_cons_self ch rest)
              have hcr : c ∉ rest := fun hr => hcm (List.mem_cons_of_mem ch hr)
              obtain ⟨h1, h2, h3⟩ := hout c hcr
              rw [h1, h2, h3]
              simp [updFun, hcch]
            · intro c hcm
              rcases List.mem_cons.1 hcm with hce | hcr
              · subst hce
                obtain ⟨h1, h2, h3⟩ := hout c hch
                rw [h1, h2, h3]
                simp only [updFun, if_pos rfl]
                exact ⟨pl, al, cl, d.power, d.angle, d.complexData, hpl, hal, hcl, rfl, rfl, rfl⟩
              · obtain ⟨lp, la, lc, x, y, z, e1, e2, e3, e4, e5, e6⟩ := hin c hcr
                have hcch : c ≠ ch := fun he => hch (he ▸ hcr)
                refine ⟨lp, la, lc, x, y, z, ?_, ?_, ?_, e4, e5, e6⟩
                · rw [← e1]
                  simp only [updFun, if_neg hcch]
                · rw [← e2]
                  simp only [updFun, if_neg hcch]
                · rw [← e3]
                  simp only [updFun, if_neg hcch]

/-! ### Frame lemmas for the dispatch handlers -/

/-- The parameter handler touches only `parameters`, on every path. -/
theorem stepParamTable_frame (s : State) (p : ParamData) (ts : Nat) :
    (stepParamTable s p ts).1.config_datagram = s.config_datagram ∧
    (stepParamTable s p ts).1.ping_data_dict_frequency = s.ping_data_dict_frequency ∧
    (stepParamTable s p ts).1.ping_time = s.ping_time ∧
    (stepParamTable s p ts).1.power_dict = s.power_dict ∧
    (stepParamTable s p ts).1.angle_dict = s.angle_dict ∧
    (stepParamTable s p ts).1.complex_dict = s.complex_dict ∧
    (stepParamTable s p ts).1.environment = s.environment ∧
    (stepParamTable s p ts).1.mru_heading = s.mru_heading ∧
    (stepParamTable s p ts).1.mru_pitch = s.mru_pitch ∧
    (stepParamTable s p ts).1.mru_roll = s.mru_roll ∧
    (stepParamTable s p ts).1.mru_heave = s.mru_heave ∧
    (stepParamTable s p ts).1.mru_timestamp = s.mru_timestamp ∧
    (stepParamTable s p ts).1.nmea_log = s.nmea_log ∧
    (stepParamTable s p ts).1.fil_coeffs = s.fil_coeffs ∧
    (stepParamTable s p ts).1.fil_df = s.fil_df ∧
    (stepParamTable s p ts).1.ch_ids = s.ch_ids := by
  unfold stepParamTable
  cases s.parameters p.channel_id with
  | none => exact ⟨rfl, rfl, rfl, rfl, rfl, rfl, rfl, rfl, rfl, rfl, rfl, rfl, rfl, rfl, rfl, rfl⟩
  | some tbl =>
    cases p.frequency_start with
    | none =>
      cases p.frequency with
      | none =>
        exact ⟨rfl, rfl, rfl, rfl, rfl, rfl, rfl, rfl, rfl, rfl, rfl, rfl, rfl, rfl, rfl, rfl⟩
      | some f =>
        exact ⟨rfl, rfl, rfl, rfl, rfl, rfl, rfl, rfl, rfl, rfl, rfl, rfl, rfl, rfl, rfl, rfl⟩
    | some fs =>
      cases p.frequency_end with
      | none =>
        exact ⟨rfl, rfl, rfl, rfl, rfl, rfl, rfl, rfl, rfl, rfl, rfl, rfl, rfl, rfl, rfl, rfl⟩
      | some fe =>
        exact ⟨rfl, rfl, rfl, rfl, rfl, rfl, rfl, rfl, rfl, rfl, rfl, rfl, rfl, rfl, rfl, rfl⟩

/-- The RAW handler touches only the ping outputs (`ping_time` and the
three sample dicts), on every path. -/
theorem stepRaw_frame (ls : LoopState) (ts : Nat) (c : ChannelId) (pw an cx : Int) :
    (stepRaw ls ts c pw an cx).1.s.config_datagram = ls.s.config_datagram ∧
    (stepRaw ls ts c pw an cx).1.s.ping_data_dict_frequency = ls.s.ping_data_dict_frequency ∧
    (stepRaw ls ts c pw an cx).1.s.environment = ls.s.environment ∧
    (stepRaw ls ts c pw an cx).1.s.parameters = ls.s.parameters ∧
    (stepRaw ls ts c pw an cx).1.s.mru_heading = ls.s.mru_heading ∧
    (stepRaw ls ts c pw an cx).1.s.mru_pitch = ls.s.mru_pitch ∧
    (stepRaw ls ts c pw an cx).1.s.mru_roll = ls.s.mru_roll ∧
    (stepRaw ls ts c pw an cx).1.s.mru_heave = ls.s.mru_heave ∧
    (stepRaw ls ts c pw an cx).1.s.mru_timestamp = ls.s.mru_timestamp ∧
    (stepRaw ls ts c pw an cx).1.s.nmea_log = ls.s.nmea_log ∧
    (stepRaw ls ts c pw an cx).1.s.fil_coeffs = ls.s.fil_coeffs ∧
    (stepRaw ls ts c pw an cx).1.s.fil_df = ls.s.fil_df ∧
    (stepRaw ls ts c pw an cx).1.s.ch_ids = ls.s.ch_ids := by
  unfold stepRaw
  dsimp only
  repeat' split
  all_goals first
    | exact ⟨rfl, rfl, rfl, rfl, rfl, rfl, rfl, rfl, rfl, rfl, rfl, rfl, rfl⟩
    | · obtain ⟨f1, f2, _, f4, f5, f6, f7, f8, f9, f10, f11, f12, f13, f14⟩ :=
          commitLoop_frame _ _ _ _
        exact ⟨f1, f2, f4, f5, f6, f7, f8, f9, f10, f11, f12, f13, f14⟩

theorem runLoop_cons_elim (ls ls1 : LoopState) (d : Datagram) (ds : List Datagram)
    (h : runLoop ls (d :: ds) = (ls1, none)) :
    ∃ ls2, step ls d = (ls2, none) ∧ runLoop ls2 ds = (ls1, none) := by
  rcases hs : step ls d with ⟨ls2, e⟩
  cases e with
  | none => exact ⟨ls2, rfl, by rwa [runLoop_cons_ok hs] at h⟩
  | some e0 =>
    rw [runLoop_cons_err hs] at h
    exact absurd (congrArg Prod.snd h) (by simp)

/-- Processing any record that is not a parameter record leaves the
parameter tables untouched, error or not. -/
theorem step_preserves_params (ls : LoopState) (d : Datagram)
    (hd : ∀ ts p, d ≠ Datagram.xmlParameter ts p) :
    (step ls d).1.s.parameters = ls.s.parameters := by
  cases d with
  | xmlParameter ts p => exact absurd rfl (hd ts p)
  | raw ts c pw an cx => exact (stepRaw_frame _ _ _ _ _ _).2.2.2.1
  | xmlConfiguration ts cfg => rfl
  | xmlEnvironment ts env => rfl
  | xmlOther ts st ks => rfl
  | nme ts msg => rfl
  | mru ts hd pt rl hv => rfl
  | fil ts c st co df => rfl
  | tag ts => rfl

theorem counts_cons_not_param (c : ChannelId) (d : Datagram) (ds : List Datagram)
    (hd : ∀ ts p, d ≠ Datagram.xmlParameter ts p) :
    countParamsFor c (d :: ds) = countParamsFor c ds ∧
    countParamsNoStart c (d :: ds) = countParamsNoStart c ds ∧
    countParamsStart c (d :: ds) = countParamsStart c ds := by
  cases d with
  | xmlParameter ts p => exact absurd rfl (hd ts p)
  | xmlConfiguration ts cfg =>
    exact ⟨by simp [countParamsFor, isParamFor, List.filter_cons],
      by simp [countParamsNoStart, isParamForNoStart, List.filter_cons],
      by simp [countParamsStart, isParamForStart, List.filter_cons]⟩
  | xmlEnvironment ts env =>
    exact ⟨by simp [countParamsFor, isParamFor, List.filter_cons],
      by simp [countParamsNoStart, isParamForNoStart, List.filter_cons],
      by simp [countParamsStart, isParamForStart, List.filter_cons]⟩
  | xmlOther ts st ks =>
    exact ⟨by simp [countParamsFor, isParamFor, List.filter_cons],
      by simp [countParamsNoStart, isParamForNoStart, List.filter_cons],
      by simp [countParamsStart, isParamForStart, List.filter_cons]⟩
  | raw ts cid pw an cx =>
    exact ⟨by simp [countParamsFor, isParamFor, List.filter_cons],
      by simp [countParamsNoStart, isParamForNoStart, List.filter_cons],
      by simp [countParamsStart, isParamForStart, List.filter_cons]⟩
  | nme ts msg =>
    exact ⟨by simp [countParamsFor, isParamFor, List.filter_cons],
      by simp [countParamsNoStart, isParamForNoStart, List.filter_cons],
      by simp [countParamsStart, isParamForStart, List.filter_cons]⟩
  | mru ts hd2 pt rl hv =>
    exact ⟨by simp [countParamsFor, isParamFor, List.filter_cons],
      by simp [countParamsNoStart, isParamForNoStart, List.filter_cons],
      by simp [countParamsStart, isParamForStart, List.filter_cons]⟩
  | fil ts cid st co df =>
    exact ⟨by simp [countParamsFor, isParamFor, List.filter_cons],
      by simp [countParamsNoStart, isParamForNoStart, List.filter_cons],
      by simp [countParamsStart, isParamForStart, List.filter_cons]⟩
  | tag ts =>
    exact ⟨by simp [countParamsFor, isParamFor, List.filter_cons],
      by simp [countParamsNoStart, isParamForNoStart, List.filter_cons],
      by simp [countParamsStart, isParamForStart, List.filter_cons]⟩

/-- Any record that is not a data record leaves the ping outputs untouched,
error or not. -/
theorem step_preserves_outputs (ls : LoopState) (d : Datagram)
    (hd : ∀ ts c pw an cx, d ≠ Datagram.raw ts c pw an cx) :
    (step ls d).1.s.ping_time = ls.s.ping_time ∧
    (step ls d).1.s.power_dict = ls.s.power_dict ∧
    (step ls d).1.s.angle_dict = ls.s.angle_dict ∧
    (step ls d).1.s.complex_dict = ls.s.complex_dict := by
  cases d with
  | raw ts c pw an cx => exact absurd rfl (hd ts c pw an cx)
  | xmlParameter ts p =>
    obtain ⟨_, _, g3, g4, g5, g6, _⟩ := stepParamTable_frame ls.s p (normTs ts)
    exact ⟨g3, g4, g5, g6⟩
  | xmlConfiguration ts cfg => exact ⟨rfl, rfl, rfl, rfl⟩
  | xmlEnvironment ts env => exact ⟨rfl, rfl, rfl, rfl⟩
  | xmlOther ts st ks => exact ⟨rfl, rfl, rfl, rfl⟩
  | nme ts msg => exact ⟨rfl, rfl, rfl, rfl⟩
  | mru ts hd2 pt rl hv => exact ⟨rfl, rfl, rfl, rfl⟩
  | fil ts c st co df => exact ⟨rfl, rfl, rfl, rfl⟩
  | tag ts => exact ⟨rfl, rfl, rfl, rfl⟩

/-- No handler ever writes the channel-id list. -/
theorem step_preserves_chids (ls : LoopState) (d : Datagram) :
    (step ls d).1.s.ch_ids = ls.s.ch_ids := by
  cases d with
  | raw ts c pw an cx =>
    obtain ⟨_, _, _, _, _, _, _, _, _, _, _, _, f13⟩ := stepRaw_frame
      { ls with num_datagrams_parsed := ls.num_datagrams_parsed + 1 } (normTs ts) c pw an cx
    exact f13
  | xmlParameter ts p =>
    obtain ⟨_, _, _, _, _, _, _, _, _, _, _, _, _, _, _, g16⟩ :=
      stepParamTable_frame ls.s p (normTs ts)
    exact g16
  | xmlConfiguration ts cfg => rfl
  | xmlEnvironment ts env => rfl
  | xmlOther ts st ks => rfl
  | nme ts msg => rfl
  | mru ts hd2 pt rl hv => rfl
  | fil ts c st co df => rfl
  | tag ts => rfl

/-- A successful RAW step either leaves the instance state unchanged or its
state is a successful commit-loop run on the state with one ping time
appended. -/
theorem stepRaw_ok_s_cases (ls : LoopState) (ts : Nat) (c : ChannelId) (pw an cx : Int)
    (ls2 : LoopState) (h : stepRaw ls ts c pw an cx = (ls2, none)) :
    ls2.s = ls.s ∨
    ∃ t buf1, commitLoop { ls.s with ping_time := ls.s.ping_time ++ [t] }
      ls.s.ch_ids 0 buf1 = (ls2.s, none) := by
  unfold stepRaw at h
  dsimp only at h
  repeat' split at h
  all_goals first
    | (simp at h
       done)
    | (left
       rw [Prod.mk.injEq] at h
       exact (congrArg LoopState.s h.1).symm)
    | (right
       rw [Prod.mk.injEq] at h
       exact ⟨_, _, Prod.ext (congrArg LoopState.s h.1) h.2⟩)

theorem synced_transport (s t : State)
    (h1 : t.power_dict = s.power_dict) (h2 : t.angle_dict = s.angle_dict)
    (h3 : t.complex_dict = s.complex_dict) (h4 : t.ping_time = s.ping_time)
    (h5 : t.ch_ids = s.ch_ids) (hs : SyncedDicts s) : SyncedDicts t := by
  intro c hc
  rw [h5] at hc
  unfold SyncedDicts at hs
  rw [h1, h2, h3, h4]
  exact hs c hc

/-- One successful step preserves the sample-length invariant. -/
theorem step_synced (ls : LoopState) (d : Datagram) (ls2 : LoopState)
    (hnd : ls.s.ch_ids.Nodup) (hs : SyncedDicts ls.s) (h : step ls d = (ls2, none)) :
    SyncedDicts ls2.s ∧ ls2.s.ch_ids = ls.s.ch_ids := by
  have hch := step_preserves_chids ls d
  rw [h] at hch
  by_cases hraw : ∃ ts c pw an cx, d = Datagram.raw ts c pw an cx
  case neg =>
    push_neg at hraw
    have hp := step_preserves_outputs ls d hraw
    rw [h] at hp
    exact ⟨synced_transport ls.s ls2.s hp.2.1 hp.2.2.1 hp.2.2.2 hp.1 hch hs, hch⟩
  case pos =>
    obtain ⟨ts, c, pw, an, cx, rfl⟩ := hraw
    have h2 : stepRaw { ls with num_datagrams_parsed := ls.num_datagrams_parsed + 1 }
        (normTs ts) c pw an cx = (ls2, none) := h
    rcases stepRaw_ok_s_cases _ _ _ _ _ _ _ h2 with he | ⟨t, buf1, hcl⟩
    · refine ⟨synced_transport ls.s ls2.s ?_ ?_ ?_ ?_ hch hs, hch⟩ <;> rw [he]
    · obtain ⟨hping, hout, hin⟩ := commitLoop_spec _ _ 0 buf1 ls2.s hnd hcl
      refine ⟨?_, hch⟩
      intro cc hcm
      rw [hch] at hcm
      obtain ⟨lp, la, lc, x, y, z, e1, e2, e3, e4, e5, e6⟩ := hin cc hcm
      obtain ⟨i1, i2, i3, i4, i5, i6⟩ := hs cc hcm
      have hlp : lp.length = ls.s.ping_time.length := by
        have : ls.s.power_dict cc = some lp := e1
        rw [this] at i4
        simpa using i4
      have hla : la.length = ls.s.ping_time.length := by
        have : ls.s.angle_dict cc = some la := e2
        rw [this] at i5
        simpa using i5
      have hlc : lc.length = ls.s.ping_time.length := by
        have : ls.s.complex_dict cc = some lc := e3
        rw [this] at i6
        simpa using i6
      have hping2 : ls2.s.ping_time.length = ls.s.ping_time.length + 1 := by
        rw [hping]
        simp
      rw [e4, e5, e6]
      refine ⟨rfl, rfl, rfl, ?_, ?_, ?_⟩ <;>
        simp [hping2, hlp, hla, hlc]

theorem runLoop_synced (stream : List Datagram) : ∀ ls ls1 : LoopState,
    ls.s.ch_ids.Nodup → SyncedDicts ls.s → runLoop ls stream = (ls1, none) →
    SyncedDicts ls1.s ∧ ls1.s.ch_ids = ls.s.ch_ids := by
  induction stream with
  | nil =>
    intro ls ls1 hnd hs h
    have he : ls = ls1 := by
      have h2 := congrArg Prod.fst h
      simpa [runLoop] using h2
    subst he
    exact ⟨hs, rfl⟩
  | cons d ds ih =>
    intro ls ls1 hnd hs h
    obtain ⟨ls2, hstep, hrun⟩ := runLoop_cons_elim _ _ _ _ h
    obtain ⟨hs2, hch2⟩ := step_synced ls d ls2 hnd hs hstep
    obtain ⟨hs3, hch3⟩ := ih ls2 ls1 (by rw [hch2]; exact hnd) hs2 hrun
    exact ⟨hs3, by rw [hch3, hch2]⟩

theorem readDatagrams_elim (s : State) (stream : List Datagram) (s1 : State)
    (e : Option PyErr) (h : readDatagrams s stream = (s1, e)) :
    ∃ ls1, runLoop (mkLS s) stream = (ls1, e) ∧ ls1.s = s1 := by
  rcases hr : runLoop (mkLS s) stream with ⟨ls1, e2⟩
  unfold readDatagrams at h
  rw [hr] at h
  rw [Prod.mk.injEq] at h
  exact ⟨ls1, congrArg (Prod.mk ls1) (h.2 : e2 = e), h.1⟩

/-! ### Claim C10 -/

/-- C10: on the stream configuration, data(A) — a data record arriving
before any parameter record — the parse fails with the `UnboundLocalError`
from reading the never-assigned local `current_parameters` (`nameError`),
which is not the documented protocol-mismatch `ValueError`, and the record
is not skipped: the run aborts with no ping committed. -/
theorem data_before_parameter_unhandled_error :
    (loadFile initState [cfgAB, .raw 5000 "A" 1 2 3]).2 = some PyErr.nameError ∧
    PyErr.nameError ≠ PyErr.valueError ∧
    (loadFile initState [cfgAB, .raw 5000 "A" 1 2 3]).1.ping_time = [] := by
  refine ⟨by decide, by decide, by decide⟩

/-! ### Claim C1, counterexample -/

/-- C1 is false as stated: on channels [A, B, C], the stream
parameter(A), data(A), parameter(C), data(C), parameter(C), data(C)
completes with no error and commits one ping at its sixth record (no ping
exists after five records), while the cycle buffer holds channel ids
[A, C, C], a sequence different from the configured cycle order [A, B, C];
channel B's output even receives channel C's sample payload (30). -/
theorem commit_without_full_cycle_buffer :
    (readDatagrams sABC c1stream).2 = none ∧
    (readDatagrams sABC c1stream).1.ping_time.length = 1 ∧
    (readDatagrams sABC (c1stream.take 5)).1.ping_time = [] ∧
    (runLoop (mkLS sABC) c1stream).1.tmp_datagram_dict.map RawEntry.channel_id
      = ["A", "C", "C"] ∧
    sABC.ch_ids = ["A", "B", "C"] ∧
    (["A", "C", "C"] : List ChannelId) ≠ ["A", "B", "C"] ∧
    (readDatagrams sABC c1stream).1.power_dict "B" = some [30] := by
  refine ⟨by decide, by decide, by decide, by decide, by decide, by decide, by decide⟩

/-! ### Claim C7, counterexample -/

/-- C7 is false as stated: a parameter record for channel X, not a member
of the configured list [A, B], raises a `KeyError` (its per-channel lists
were never initialized), instead of performing its appends without error. -/
theorem parameter_unconfigured_channel_raises :
    (readDatagrams sAB [.xmlParameter 7000 (mkParam "X" 1)]).2 = some PyErr.keyError ∧
    sAB.ch_ids = ["A", "B"] ∧ ("X" : ChannelId) ∉ sAB.ch_ids := by
  refine ⟨by decide, by decide, by decide⟩

/-! ### Claim C5, counterexample -/

/-- C5 is false in its advisory part: the truncated stream
parameter(A), data(A) (end of stream with a non-empty cycle buffer) returns
an outcome identical, in every caller-visible component, to the stream
parameter(A) alone, whose cycle buffer is empty at end of stream.  No
truncation advisory or warning of any kind is reported to the caller. -/
theorem truncation_reports_no_advisory :
    readDatagrams sAB [.xmlParameter 1000 (mkParam "A" 38000), .raw 2000 "A" 10 11 12] =
      readDatagrams sAB [.xmlParameter 1000 (mkParam "A" 38000)] := by
  rfl

/-! ### Claim C8, counterexample -/

/-- C8 is false in its "exactly one" part: the handled data record data(A),
processed right after parameter(A) on the two-channel state, modifies no
accumulator at all — the entire instance state is unchanged (only the loop
locals move) and no error is raised. -/
theorem data_record_modifies_no_accumulator :
    (step lsA (.raw 2000 "A" 10 11 12)).1.s = lsA.s ∧
    (step lsA (.raw 2000 "A" 10 11 12)).2 = none := by
  exact ⟨rfl, rfl⟩

/-! ### Claim C8, amended -/

/-- C8 amended: dispatch confines each record's side effects to at most its
designated accumulator — environment records may touch only the environment
snapshot, parameter records only the parameter sequences, data records only
the ping outputs, position/motion/filter records only their logs — and a
record of any unhandled kind (TAG, XML of unknown subtype, a mid-stream
configuration record) changes no accumulator and raises no error.  (The
original "exactly one" is refuted by the counterexample: a non-committing
data record changes no accumulator.) -/
theorem dispatch_frame_effects (ls : LoopState) (d : Datagram) :
    (∀ a : Accum, touched d ≠ some a → accumEq a ls.s (step ls d).1.s) ∧
    (touched d = none → (step ls d).1.s = ls.s ∧ (step ls d).2 = none) := by
  cases d with
  | xmlConfiguration ts cfg =>
    exact ⟨fun a _ => by cases a <;> simp [accumEq, step], fun _ => ⟨rfl, rfl⟩⟩
  | xmlEnvironment ts env =>
    refine ⟨fun a ha => ?_, fun h => by simp [touched] at h⟩
    cases a <;> first | exact absurd rfl ha | simp [accumEq, step]
  | xmlParameter ts p =>
    refine ⟨fun a ha => ?_, fun h => by simp [touched] at h⟩
    obtain ⟨g1, g2, g3, g4, g5, g6, g7, g8, g9, g10, g11, g12, g13, g14, g15, g16⟩ :=
      stepParamTable_frame ls.s p (normTs ts)
    cases a with
    | params => exact absurd rfl ha
    | config => exact g1
    | pingFreq => exact g2
    | pingOut => exact ⟨g3, g4, g5, g6⟩
    | envSnap => exact g7
    | motion => exact ⟨g8, g9, g10, g11, g12⟩
    | position => exact g13
    | filt => exact ⟨g14, g15⟩
    | chans => exact g16
  | xmlOther ts st ks =>
    exact ⟨fun a _ => by cases a <;> simp [accumEq, step], fun _ => ⟨rfl, rfl⟩⟩
  | raw ts c pw an cx =>
    refine ⟨fun a ha => ?_, fun h => by simp [touched] at h⟩
    obtain ⟨f1, f2, f3, f4, f5, f6, f7, f8, f9, f10, f11, f12, f13⟩ :=
      stepRaw_frame { ls with num_datagrams_parsed := ls.num_datagrams_parsed + 1 }
        (normTs ts) c pw an cx
    cases a with
    | pingOut => exact absurd rfl ha
    | config => exact f1
    | pingFreq => exact f2
    | envSnap => exact f3
    | params => exact f4
    | motion => exact ⟨f5, f6, f7, f8, f9⟩
    | position => exact f10
    | filt => exact ⟨f11, f12⟩
    | chans => exact f13
  | nme ts msg =>
    refine ⟨fun a ha => ?_, fun h => by simp [touched] at h⟩
    cases a <;> first | exact absurd rfl ha | simp [accumEq, step]
  | mru ts hd pt rl hv =>
    refine ⟨fun a ha => ?_, fun h => by simp [touched] at h⟩
    cases a <;> first | exact absurd rfl ha | simp [accumEq, step]
  | fil ts c st co df =>
    refine ⟨fun a ha => ?_, fun h => by simp [touched] at h⟩
    cases a <;> first | exact absurd rfl ha | simp [accumEq, step]
  | tag ts =>
    exact ⟨fun a _ => by cases a <;> simp [accumEq, step], fun _ => ⟨rfl, rfl⟩⟩

/-- Witness for the amended C8: a TAG record is unhandled — no accumulator
(here: the parameter sequences) changes, the whole state is unchanged, and
no error is raised. -/
theorem dispatch_frame_effects_witness :
    (touched (Datagram.tag 3) ≠ some Accum.params ∧
      accumEq Accum.params lsA.s (step lsA (Datagram.tag 3)).1.s) ∧
    (touched (Datagram.tag 3) = none ∧
      (step lsA (Datagram.tag 3)).1.s = lsA.s ∧ (step lsA (Datagram.tag 3)).2 = none) :=
  ⟨⟨by decide, (dispatch_frame_effects lsA (Datagram.tag 3)).1 Accum.params (by decide)⟩,
   ⟨rfl, (dispatch_frame_effects lsA (Datagram.tag 3)).2 rfl⟩⟩

/-! ### Claim C2 -/

/-- C2: a data record whose channel id differs from the channel id of the
most recently appended parameter record aborts the whole parse with the
`ValueError` ("Parameter ID does not match RAW", the spec's ProtocolError):
whatever records follow, the run returns exactly the state reached before
the offending record — so that record commits no ping and every parameter
record appended before the error remains present. -/
theorem data_channel_mismatch_aborts (s : State) (pre post : List Datagram) (ls1 : LoopState)
    (ts : Nat) (c : ChannelId) (pw an cx : Int) (cp : ParamData)
    (hpre : runLoop (mkLS s) pre = (ls1, none))
    (hcp : ls1.current_parameters = some cp)
    (hne : cp.channel_id ≠ c) :
    readDatagrams s (pre ++ Datagram.raw ts c pw an cx :: post) =
      (ls1.s, some PyErr.valueError) ∧
    (readDatagrams s (pre ++ Datagram.raw ts c pw an cx :: post)).1.parameters =
      ls1.s.parameters ∧
    (readDatagrams s (pre ++ Datagram.raw ts c pw an cx :: post)).1.ping_time =
      ls1.s.ping_time := by
  have hstep : step ls1 (.raw ts c pw an cx) =
      ({ ls1 with num_datagrams_parsed := ls1.num_datagrams_parsed + 1 },
        some PyErr.valueError) :=
    stepRaw_mismatch _ (normTs ts) c pw an cx cp hcp hne
  have hmain : readDatagrams s (pre ++ Datagram.raw ts c pw an cx :: post) =
      (ls1.s, some PyErr.valueError) := by
    unfold readDatagrams
    rw [runLoop_append_ok _ hpre, runLoop_cons_err hstep]
  exact ⟨hmain, by rw [hmain], by rw [hmain]⟩

/-- Witness for C2: spec scenario C — parameter(A), data(A), parameter(B),
data(A) — aborts with `ValueError` and the already appended channel-A
parameter record is still queryable. -/
theorem data_channel_mismatch_aborts_witness :
    readDatagrams sAB scenarioC =
      ((runLoop (mkLS sAB) (scenarioC.take 3)).1.s, some PyErr.valueError) ∧
    (((runLoop (mkLS sAB) (scenarioC.take 3)).1.s.parameters "A").map
      ParamTable.frequency) = some [38000] := by
  refine ⟨?_, by decide⟩
  exact (data_channel_mismatch_aborts sAB (scenarioC.take 3) []
    ((runLoop (mkLS sAB) (scenarioC.take 3)).1) 4000 "A" 20 21 22
    (mkParam "B" 120000) rfl (by decide) (by decide)).1

/-! ### Claim C7, amended -/

/-- C7 amended: the parameter handler performs no validation of the channel
id against the configured channel list — for any state in which the
record's channel has an initialized parameter table (whether or not the
channel is configured) and the record carries its frequency fields, the
handler appends and raises no error.  (For a channel whose table was never
initialized it raises `KeyError`, see the counterexample.) -/
theorem parameter_no_membership_validation (ls : LoopState) (ts : Nat) (p : ParamData)
    (tbl : ParamTable) (h : ls.s.parameters p.channel_id = some tbl) (hw : freqWf p) :
    (step ls (.xmlParameter ts p)).2 = none := by
  obtain ⟨tbl1, he, _⟩ := stepParamTable_ok ls.s p (normTs ts) tbl h hw
  rw [step_param_eq]
  rw [he]

/-- Witness for the amended C7: channel X is not configured, yet with its
table initialized the handler succeeds — no membership check happens. -/
theorem parameter_no_membership_validation_witness :
    (("X" : ChannelId) ∉ sX.ch_ids ∧ sX.parameters "X" = some emptyParamTable ∧
      freqWf (mkParam "X" 1)) ∧
    (step (mkLS sX) (.xmlParameter 9000 (mkParam "X" 1))).2 = none :=
  ⟨⟨by decide, by decide, by decide⟩,
   parameter_no_membership_validation (mkLS sX) 9000 (mkParam "X" 1) emptyParamTable
     (by decide) (by decide)⟩

/-! ### Claim C1, amended -/

/-- C1 amended: a ping commit begins (observable as `ping_time` growing)
exactly when the incoming data record's channel id and the configured
channel at the post-increment counter both equal the *last* configured
channel id — the code's two-element test — not when the buffered channel-id
sequence equals the full configured cycle order. -/
theorem ping_commit_iff_two_element_test (ls : LoopState) (ts : Nat) (c : ChannelId)
    (pw an cx : Int) (cp : ParamData) (ch0 chAt chLast : ChannelId)
    (hcp : ls.current_parameters = some cp) (hc : cp.channel_id = c)
    (h0 : pyGet ls.s.ch_ids 0 = some ch0)
    (hAt : pyGet ls.s.ch_ids
      ((if c = ch0 then -1 else ls.tmp_num_ch_per_ping_parsed) + 1) = some chAt)
    (hLast : pyGet ls.s.ch_ids (-1) = some chLast) :
    ((stepRaw ls ts c pw an cx).1.s.ping_time ≠ ls.s.ping_time ↔
      (c = chLast ∧ chAt = chLast)) := by
  by_cases hcond : c = chLast ∧ chAt = chLast
  · have hlen : 0 <
        ((if c = ch0 then [] else ls.tmp_datagram_dict) ++
          [(⟨ts, c, pw, an, cx⟩ : RawEntry)]).length := by
      simp
    obtain ⟨first, hfirst⟩ := Option.isSome_iff_exists.1
      (show (pyGet ((if c = ch0 then [] else ls.tmp_datagram_dict) ++
          [(⟨ts, c, pw, an, cx⟩ : RawEntry)]) 0).isSome by
        rw [pyGet_zero, List.get?_eq_get hlen]
        rfl)
    rw [stepRaw_commit ls ts c pw an cx cp ch0 chAt chLast first hcp hc h0 hAt hLast hcond
      hfirst]
    refine iff_of_true ?_ hcond
    dsimp only
    rw [(commitLoop_frame _ _ _ _).2.2.1]
    intro hcontra
    have hl := congrArg List.length hcontra
    simp at hl
  · rw [stepRaw_no_commit ls ts c pw an cx cp ch0 chAt chLast hcp hc h0 hAt hLast hcond]
    simp [hcond]

/-- Witness for the amended C1: on the two-channel state right after
parameter(A), an incoming data(A) resets the buffer, the two-element test
compares A against the last channel B, and no commit happens. -/
theorem ping_commit_iff_two_element_test_witness :
    (lsA.current_parameters = some (mkParam "A" 38000) ∧
      (mkParam "A" 38000).channel_id = "A" ∧
      pyGet lsA.s.ch_ids 0 = some "A" ∧
      pyGet lsA.s.ch_ids
        ((if "A" = ("A" : ChannelId) then -1 else lsA.tmp_num_ch_per_ping_parsed) + 1) =
        some "A" ∧
      pyGet lsA.s.ch_ids (-1) = some "B") ∧
    ((stepRaw lsA 2 "A" 10 11 12).1.s.ping_time ≠ lsA.s.ping_time ↔
      (("A" : ChannelId) = "B" ∧ ("A" : ChannelId) = "B")) :=
  ⟨⟨by decide, by decide, by decide, by decide, by decide⟩,
   ping_commit_iff_two_element_test lsA 2 "A" 10 11 12 (mkParam "A" 38000) "A" "A" "B"
     (by decide) (by decide) (by decide) (by decide) (by decide)⟩

/-! ### Claim C6 -/

/-- C6: along any error-free run, each parameter record for channel `c`
appends exactly one element to that channel's `pulse_duration`,
`pulse_form`, `sample_interval`, `slope`, `transmit_power` and `timestamp`
sequences (so after `M` such records each has grown by exactly `M`, in
arrival order), appends to `frequency` exactly when `frequency_start` is
absent and to `frequency_start`/`frequency_end` exactly when it is present
— never to both representations. -/
theorem parameter_record_appends (stream : List Datagram) (ls1 : LoopState)
    (c : ChannelId) (tbl1 : ParamTable) :
    ∀ (ls : LoopState) (tbl : ParamTable),
    runLoop ls stream = (ls1, none) →
    ls.s.parameters c = some tbl →
    ls1.s.parameters c = some tbl1 →
    tbl1.pulse_duration.length = tbl.pulse_duration.length + countParamsFor c stream ∧
    tbl1.pulse_form.length = tbl.pulse_form.length + countParamsFor c stream ∧
    tbl1.sample_interval.length = tbl.sample_interval.length + countParamsFor c stream ∧
    tbl1.slope.length = tbl.slope.length + countParamsFor c stream ∧
    tbl1.transmit_power.length = tbl.transmit_power.length + countParamsFor c stream ∧
    tbl1.timestamp.length = tbl.timestamp.length + countParamsFor c stream ∧
    tbl1.frequency.length = tbl.frequency.length + countParamsNoStart c stream ∧
    tbl1.frequency_start.length = tbl.frequency_start.length + countParamsStart c stream ∧
    tbl1.frequency_end.length = tbl.frequency_end.length + countParamsStart c stream ∧
    countParamsNoStart c stream + countParamsStart c stream = countParamsFor c stream := by
  induction stream with
  | nil =>
    intro ls tbl hrun h0 h1
    have he : ls = ls1 := by
      have h2 := congrArg Prod.fst hrun
      simpa [runLoop] using h2
    subst he
    rw [h0] at h1
    injection h1 with h1
    subst h1
    simp [countParamsFor, countParamsNoStart, countParamsStart]
  | cons d ds ih =>
    intro ls tbl hrun h0 h1
    obtain ⟨ls2, hs, hrun2⟩ := runLoop_cons_elim ls ls1 d ds hrun
    by_cases hd : ∃ ts p, d = Datagram.xmlParameter ts p
    · obtain ⟨ts, p, rfl⟩ := hd
      have hpt : stepParamTable ls.s p (normTs ts) = (ls2.s, none) := by
        rw [step_param_eq, Prod.mk.injEq] at hs
        exact Prod.ext (congrArg LoopState.s hs.1) hs.2
      obtain ⟨tblp, hp, hc2⟩ := stepParamTable_ok_char ls.s p (normTs ts) ls2.s hpt
      by_cases hpc : p.channel_id = c
      · rw [hpc] at hp
        rw [hp] at h0
        have htt : tblp = tbl := by cases h0; rfl
        subst htt
        rcases hc2 with ⟨hfs, f, hf, hse⟩ | ⟨fs, fe, hfs, hfe, hse⟩
        · have h2 : ls2.s.parameters c = some
              (appendRest { tblp with frequency := tblp.frequency ++ [f] } p (normTs ts)) := by
            rw [hse, hpc]
            simp [setParams, updFun]
          obtain ⟨e1, e2, e3, e4, e5, e6, e7, e8, e9, e10⟩ := ih ls2 _ hrun2 h2 h1
          simp only [appendRest, List.length_append, List.length_cons,
            List.length_nil] at e1 e2 e3 e4 e5 e6 e7 e8 e9
          have hc1 : countParamsFor c (Datagram.xmlParameter ts p :: ds) =
              countParamsFor c ds + 1 := by
            simp [countParamsFor, isParamFor, List.filter_cons, hpc]
          have hc2' : countParamsNoStart c (Datagram.xmlParameter ts p :: ds) =
              countParamsNoStart c ds + 1 := by
            simp [countParamsNoStart, isParamForNoStart, List.filter_cons, hpc, hfs]
          have hc3 : countParamsStart c (Datagram.xmlParameter ts p :: ds) =
              countParamsStart c ds := by
            simp [countParamsStart, isParamForStart, List.filter_cons, hpc, hfs]
          rw [hc1, hc2', hc3]
          omega
        · have h2 : ls2.s.parameters c = some
              (appendRest { tblp with
                frequency_start := tblp.frequency_start ++ [fs]
                frequency_end := tblp.frequency_end ++ [fe] } p (normTs ts)) := by
            rw [hse, hpc]
            simp [setParams, updFun]
          obtain ⟨e1, e2, e3, e4, e5, e6, e7, e8, e9, e10⟩ := ih ls2 _ hrun2 h2 h1
          simp only [appendRest, List.length_append, List.length_cons,
            List.length_nil] at e1 e2 e3 e4 e5 e6 e7 e8 e9
          have hc1 : countParamsFor c (Datagram.xmlParameter ts p :: ds) =
              countParamsFor c ds + 1 := by
            simp [countParamsFor, isParamFor, List.filter_cons, hpc]
          have hc2' : countParamsNoStart c (Datagram.xmlParameter ts p :: ds) =
              countParamsNoStart c ds := by
            simp [countParamsNoStart, isParamForNoStart, List.filter_cons, hpc, hfs]
          have hc3 : countParamsStart c (Datagram.xmlParameter ts p :: ds) =
              countParamsStart c ds + 1 := by
            simp [countParamsStart, isParamForStart, List.filter_cons, hpc, hfs]
          rw [hc1, hc2', hc3]
          omega
      · have h2 : ls2.s.parameters c = some tbl := by
          rcases hc2 with ⟨_, _, _, hse⟩ | ⟨_, _, _, _, hse⟩ <;>
          · rw [hse]
            rw [setParams]
            show updFun ls.s.parameters p.channel_id _ c = some tbl
            rw [updFun_ne _ _ _ _ (fun hh => hpc hh.symm)]
            exact h0
        have hc1 : countParamsFor c (Datagram.xmlParameter ts p :: ds) =
            countParamsFor c ds := by
          simp [countParamsFor, isParamFor, List.filter_cons, hpc]
        have hc2' : countParamsNoStart c (Datagram.xmlParameter ts p :: ds) =
            countParamsNoStart c ds := by
          simp [countParamsNoStart, isParamForNoStart, List.filter_cons, hpc]
        have hc3 : countParamsStart c (Datagram.xmlParameter ts p :: ds) =
            countParamsStart c ds := by
          simp [countParamsStart, isParamForStart, List.filter_cons, hpc]
        rw [hc1, hc2', hc3]
        exact ih ls2 tbl hrun2 h2 h1
    · push_neg at hd
      have hpp := step_preserves_params ls d hd
      rw [hs] at hpp
      obtain ⟨c1, c2, c3⟩ := counts_cons_not_param c d ds hd
      rw [c1, c2, c3]
      exact ih ls2 tbl hrun2 (by rw [hpp]; exact h0) h1

/-- Witness for C6: two parameter records for channel A (the first carrying
a single frequency, the second a start/end pair) grow each unconditional
sequence by 2, the single-frequency sequence by 1 and the pair sequences by
1 each. -/
theorem parameter_record_appends_witness :
    (runLoop (mkLS sAB)
        [Datagram.xmlParameter 1000 (mkParam "A" 38000),
         Datagram.xmlParameter 2000 (mkParamFS "A" 5 6)]).2 = none ∧
    ((runLoop (mkLS sAB)
        [Datagram.xmlParameter 1000 (mkParam "A" 38000),
         Datagram.xmlParameter 2000 (mkParamFS "A" 5 6)]).1.s.parameters "A").isSome ∧
    (∀ tbl1,
      (runLoop (mkLS sAB)
        [Datagram.xmlParameter 1000 (mkParam "A" 38000),
         Datagram.xmlParameter 2000 (mkParamFS "A" 5 6)]).1.s.parameters "A" = some tbl1 →
      tbl1.pulse_duration.length = 2 ∧ tbl1.frequency.length = 1 ∧
      tbl1.frequency_start.length = 1 ∧ tbl1.frequency_end.length = 1) := by
  refine ⟨by decide, by decide, ?_⟩
  intro tbl1 h1
  have h := parameter_record_appends
    [Datagram.xmlParameter 1000 (mkParam "A" 38000),
     Datagram.xmlParameter 2000 (mkParamFS "A" 5 6)]
    ((runLoop (mkLS sAB)
        [Datagram.xmlParameter 1000 (mkParam "A" 38000),
         Datagram.xmlParameter 2000 (mkParamFS "A" 5 6)]).1) "A" tbl1
    (mkLS sAB) emptyParamTable rfl (by decide) h1
  refine ⟨?_, ?_, ?_, ?_⟩
  · rw [h.1]
    decide
  · rw [h.2.2.2.2.2.2.1]
    decide
  · rw [h.2.2.2.2.2.2.2.1]
    decide
  · rw [h.2.2.2.2.2.2.2.2.1]
    decide

/-! ### Well-formed cycle processing -/

theorem pyGet_cons_zero {α : Type} (a : α) (l : List α) : pyGet (a :: l) 0 = some a := by
  rw [pyGet_zero]
  rfl

theorem pyGet_nat {α : Type} (l : List α) (n : Nat) : pyGet l (n : Int) = l.get? n :=
  pyGet_ofNat l n

theorem getLast?_cons_append_append {α : Type} (p0 : α) (a b c : List α) (h : c ≠ []) :
    (p0 :: (a ++ b ++ c)).getLast? = c.getLast? := by
  rw [show p0 :: (a ++ b ++ c) = (p0 :: (a ++ b)) ++ c by simp]
  exact List.getLast?_append_of_ne_nil _ h

theorem pairSeq_append (l1 l2 : List ChannelId) (s : List Datagram)
    (h : PairSeq (l1 ++ l2) s) :
    ∃ s1 s2, s = s1 ++ s2 ∧ PairSeq l1 s1 ∧ PairSeq l2 s2 := by
  induction l1 generalizing s with
  | nil => exact ⟨[], s, rfl, PairSeq.nil, h⟩
  | cons c rest ih =>
    cases h with
    | cons _ tp td p pw an cx _ s0 hc hw h0 =>
      obtain ⟨s1, s2, rfl, hp1, hp2⟩ := ih s0 h0
      exact ⟨_ :: _ :: s1, s2, rfl, PairSeq.cons c tp td p pw an cx rest s1 hc hw hp1, hp2⟩

theorem countRaw_pairSeq (cs : List ChannelId) (sub : List Datagram) (h : PairSeq cs sub) :
    countRaw sub = cs.length := by
  induction h with
  | nil => rfl
  | cons c tp td p pw an cx rest s hc hw hps ih =>
    simp only [countRaw, Datagram.isRawRecord, List.filter_cons] at ih ⊢
    simp [ih]

theorem countRaw_append (s1 s2 : List Datagram) :
    countRaw (s1 ++ s2) = countRaw s1 + countRaw s2 := by
  simp [countRaw, List.filter_append]

theorem countRaw_cyclesSeq (chs : List ChannelId) (n : Nat) (stream : List Datagram)
    (h : CyclesSeq chs n stream) : countRaw stream = n * chs.length := by
  induction h with
  | nil => simp [countRaw]
  | cons n s t hp hc ih =>
    rw [countRaw_append, countRaw_pairSeq chs s hp, ih]
    ring

/-- Processing a parameter record whose channel has an initialized table
succeeds and changes only that table, leaving the loop locals in place and
recording the record as `current_parameters`. -/
theorem step_param_good (ls : LoopState) (tp : Nat) (p : ParamData)
    (hg : (ls.s.parameters p.channel_id).isSome) (hw : freqWf p) :
    ∃ ls2, step ls (.xmlParameter tp p) = (ls2, none) ∧
      ls2.s.ping_time = ls.s.ping_time ∧
      ls2.s.power_dict = ls.s.power_dict ∧
      ls2.s.angle_dict = ls.s.angle_dict ∧
      ls2.s.complex_dict = ls.s.complex_dict ∧
      ls2.s.ch_ids = ls.s.ch_ids ∧
      (∀ c, (ls.s.parameters c).isSome → (ls2.s.parameters c).isSome) ∧
      ls2.tmp_num_ch_per_ping_parsed = ls.tmp_num_ch_per_ping_parsed ∧
      ls2.tmp_datagram_dict = ls.tmp_datagram_dict ∧
      ls2.current_parameters = some p := by
  obtain ⟨tbl, htbl⟩ := Option.isSome_iff_exists.1 hg
  obtain ⟨tbl1, he, _⟩ := stepParamTable_ok ls.s p (normTs tp) tbl htbl hw
  refine ⟨⟨setParams ls.s p.channel_id tbl1, ls.num_datagrams_parsed + 1,
    ls.tmp_num_ch_per_ping_parsed, ls.tmp_datagram_dict, some p⟩,
    ?_, rfl, rfl, rfl, rfl, rfl, ?_, rfl, rfl, rfl⟩
  · rw [step_param_eq, he]
  · intro c hc
    by_cases hcc : c = p.channel_id
    · subst hcc
      simp [setParams, updFun]
    · simpa [setParams, updFun, hcc] using hc

/-- A data record for the last configured channel, arriving with the loop
counter pointing at the last channel and a buffer at least as long as the
channel list, performs a full, error-free commit: one ping time is appended
and every configured channel's three sample dicts stay present. -/
theorem stepRaw_commit_good (ls : LoopState) (td : Nat) (c : ChannelId) (pw an cx : Int)
    (p : ParamData) (ch0 chAt : ChannelId)
    (hcp : ls.current_parameters = some p) (hpc : p.channel_id = c)
    (h0 : pyGet ls.s.ch_ids 0 = some ch0)
    (hAt : pyGet ls.s.ch_ids
      ((if c = ch0 then -1 else ls.tmp_num_ch_per_ping_parsed) + 1) = some chAt)
    (hLast : pyGet ls.s.ch_ids (-1) = some c)
    (hchAt : chAt = c)
    (hlen : ls.s.ch_ids.length ≤
      ((if c = ch0 then [] else ls.tmp_datagram_dict) ++
        [(⟨td, c, pw, an, cx⟩ : RawEntry)]).length)
    (hnd : ls.s.ch_ids.Nodup)
    (hgd : ∀ cc ∈ ls.s.ch_ids, (ls.s.power_dict cc).isSome ∧
      (ls.s.angle_dict cc).isSome ∧ (ls.s.complex_dict cc).isSome) :
    ∃ ls1, stepRaw ls td c pw an cx = (ls1, none) ∧
      ls1.s.ping_time.length = ls.s.ping_time.length + 1 ∧
      ls1.s.ch_ids = ls.s.ch_ids ∧
      ls1.s.parameters = ls.s.parameters ∧
      (∀ cc ∈ ls.s.ch_ids, (ls1.s.power_dict cc).isSome ∧
        (ls1.s.angle_dict cc).isSome ∧ (ls1.s.complex_dict cc).isSome) := by
  have hlen0 : 0 <
      ((if c = ch0 then [] else ls.tmp_datagram_dict) ++
        [(⟨td, c, pw, an, cx⟩ : RawEntry)]).length := by
    simp
  obtain ⟨first, hfirst⟩ := Option.isSome_iff_exists.1
    (show (pyGet ((if c = ch0 then [] else ls.tmp_datagram_dict) ++
        [(⟨td, c, pw, an, cx⟩ : RawEntry)]) 0).isSome by
      rw [pyGet_zero, List.get?_eq_get hlen0]
      rfl)
  have hre := stepRaw_commit ls td c pw an cx p ch0 chAt c first hcp hpc h0 hAt hLast
    ⟨rfl, hchAt⟩ hfirst
  have hok : (commitLoop { ls.s with ping_time := ls.s.ping_time ++ [first.timestamp] }
      ls.s.ch_ids 0
      ((if c = ch0 then [] else ls.tmp_datagram_dict) ++
        [(⟨td, c, pw, an, cx⟩ : RawEntry)])).2 = none := by
    apply commitLoop_ok
    · simpa using hlen
    · exact hgd
  have hspec := commitLoop_spec ls.s.ch_ids
    { ls.s with ping_time := ls.s.ping_time ++ [first.timestamp] } 0
    ((if c = ch0 then [] else ls.tmp_datagram_dict) ++
      [(⟨td, c, pw, an, cx⟩ : RawEntry)])
    (commitLoop { ls.s with ping_time := ls.s.ping_time ++ [first.timestamp] }
      ls.s.ch_ids 0
      ((if c = ch0 then [] else ls.tmp_datagram_dict) ++
        [(⟨td, c, pw, an, cx⟩ : RawEntry)])).1
    hnd (Prod.ext rfl hok)
  obtain ⟨f1, f2, f3, f4, f5, f6, f7, f8, f9, f10, f11, f12, f13, f14⟩ :=
    commitLoop_frame ls.s.ch_ids
      { ls.s with ping_time := ls.s.ping_time ++ [first.timestamp] } 0
      ((if c = ch0 then [] else ls.tmp_datagram_dict) ++
        [(⟨td, c, pw, an, cx⟩ : RawEntry)])
  refine ⟨{ ls with
      s := (commitLoop { ls.s with ping_time := ls.s.ping_time ++ [first.timestamp] }
        ls.s.ch_ids 0
        ((if c = ch0 then [] else ls.tmp_datagram_dict) ++
          [(⟨td, c, pw, an, cx⟩ : RawEntry)])).1
      tmp_num_ch_per_ping_parsed :=
        (if c = ch0 then -1 else ls.tmp_num_ch_per_ping_parsed) + 1
      tmp_datagram_dict :=
        (if c = ch0 then [] else ls.tmp_datagram_dict) ++
          [(⟨td, c, pw, an, cx⟩ : RawEntry)] }, ?_, ?_, ?_, ?_, ?_⟩
  · rw [hre, hok]
  · show (commitLoop _ _ _ _).1.ping_time.length = _
    rw [f3]
    simp
  · exact f14
  · exact f5
  · intro cc hcm
    obtain ⟨lp, la, lc, x, y, z, e1, e2, e3, e4, e5, e6⟩ := hspec.2.2 cc hcm
    show ((commitLoop _ _ _ _).1.power_dict cc).isSome ∧
      ((commitLoop _ _ _ _).1.angle_dict cc).isSome ∧
      ((commitLoop _ _ _ _).1.complex_dict cc).isSome
    rw [e4, e5, e6]
    exact ⟨rfl, rfl, rfl⟩

/-- Parameter/data pairs for channels strictly between the cycle start and
the last configured channel are absorbed into the cycle buffer without any
commit: the ping outputs are untouched, the counter and buffer advance in
lockstep, and no error occurs. -/
theorem runLoop_pairs_no_commit (mid : List ChannelId) :
    ∀ (preRest post : List ChannelId) (p0 : ChannelId) (sub : List Datagram) (ls : LoopState),
    ls.s.ch_ids = p0 :: (preRest ++ mid ++ post) →
    (p0 :: (preRest ++ mid ++ post)).Nodup →
    post ≠ [] →
    GoodDicts ls.s →
    ls.tmp_num_ch_per_ping_parsed = (preRest.length : Int) →
    ls.tmp_datagram_dict.length = preRest.length + 1 →
    PairSeq mid sub →
    ∃ ls1, runLoop ls sub = (ls1, none) ∧
      ls1.s.ping_time = ls.s.ping_time ∧
      ls1.s.power_dict = ls.s.power_dict ∧
      ls1.s.angle_dict = ls.s.angle_dict ∧
      ls1.s.complex_dict = ls.s.complex_dict ∧
      ls1.s.ch_ids = ls.s.ch_ids ∧
      GoodDicts ls1.s ∧
      ls1.tmp_num_ch_per_ping_parsed = ((preRest.length + mid.length : Nat) : Int) ∧
      ls1.tmp_datagram_dict.length = preRest.length + mid.length + 1 := by
  induction mid with
  | nil =>
    intro preRest post p0 sub ls hch hnd hpost hg hcnt hbuf hps
    cases hps
    exact ⟨ls, rfl, rfl, rfl, rfl, rfl, rfl, hg, by simpa using hcnt, by simpa using hbuf⟩
  | cons c mid' ih =>
    intro preRest post p0 sub ls hch hnd hpost hg hcnt hbuf hps
    cases hps with
    | cons _ tp td p pw an cx _ sub' hpcc hw hps' =>
      have hgc : (ls.s.parameters p.channel_id).isSome := by
        rw [hpcc]
        exact (hg c (by rw [hch]; simp)).1
      obtain ⟨ls2, hstep1, q1, q2, q3, q4, q5, q6, q7, q8, q9⟩ := step_param_good ls tp p hgc hw
      have hg2 : GoodDicts ls2.s := by
        intro cc hcc
        rw [q5] at hcc
        obtain ⟨a1, a2, a3, a4⟩ := hg cc hcc
        exact ⟨q6 cc a1, by rw [q2]; exact a2, by rw [q3]; exact a3, by rw [q4]; exact a4⟩
      have hcmem : c ∈ preRest ++ (c :: mid') ++ post := by simp
      have hcne : c ≠ p0 := by
        intro he
        exact (List.nodup_cons.1 hnd).1 (he ▸ hcmem)
      have h0 : pyGet ls2.s.ch_ids 0 = some p0 := by
        rw [q5, hch]
        exact pyGet_cons_zero p0 _
      have hAtArith : (if c = p0 then (-1 : Int) else ls2.tmp_num_ch_per_ping_parsed) + 1 =
          ((preRest.length + 1 : Nat) : Int) := by
        rw [if_neg hcne, q7, hcnt]
        push_cast
        ring
      have hAt : pyGet ls2.s.ch_ids
          ((if c = p0 then (-1 : Int) else ls2.tmp_num_ch_per_ping_parsed) + 1) = some c := by
        rw [hAtArith, q5, hch, pyGet_nat]
        show (preRest ++ (c :: mid') ++ post).get? preRest.length = some c
        rw [List.append_assoc, List.get?_append_right (le_refl preRest.length)]
        simp
      obtain ⟨cl, hcl⟩ : ∃ cl, post.getLast? = some cl := by
        cases hgl : post.getLast? with
        | none => exact absurd (List.getLast?_eq_none_iff.1 hgl) hpost
        | some cl => exact ⟨cl, rfl⟩
      have hLast : pyGet ls2.s.ch_ids (-1) = some cl := by
        rw [q5, hch, pyGet_neg_one, getLast?_cons_append_append p0 _ _ _ hpost, hcl]
      have hclne : c ≠ cl := by
        have hclmem : cl ∈ post := List.mem_of_mem_getLast? hcl
        intro he
        have hnd2 : ((preRest ++ (c :: mid')) ++ post).Nodup := by
          have h3 := (List.nodup_cons.1 hnd).2
          simpa [List.append_assoc] using h3
        exact List.disjoint_of_nodup_append hnd2 (by simp) (he.symm ▸ hclmem)
      have hnc : ¬(c = cl ∧ c = cl) := fun hcon => hclne hcon.1
      have hstep2 : step ls2 (.raw td c pw an cx) =
          ({ ls2 with
              num_datagrams_parsed := ls2.num_datagrams_parsed + 1
              tmp_num_ch_per_ping_parsed :=
                (if c = p0 then -1 else ls2.tmp_num_ch_per_ping_parsed) + 1
              tmp_datagram_dict :=
                (if c = p0 then [] else ls2.tmp_datagram_dict) ++
                  [(⟨normTs td, c, pw, an, cx⟩ : RawEntry)] }, none) :=
        stepRaw_no_commit _ (normTs td) c pw an cx p p0 c cl q9 hpcc h0 hAt hLast hnc
      have hch3 : p0 :: (preRest ++ (c :: mid') ++ post) =
          p0 :: ((preRest ++ [c]) ++ mid' ++ post) := by
        simp [List.append_assoc]
      obtain ⟨ls4, hrunr, r1, r2, r3, r4, r5, r6, r7, r8⟩ :=
        ih (preRest ++ [c]) post p0 sub'
          ({ ls2 with
              num_datagrams_parsed := ls2.num_datagrams_parsed + 1
              tmp_num_ch_per_ping_parsed :=
                (if c = p0 then -1 else ls2.tmp_num_ch_per_ping_parsed) + 1
              tmp_datagram_dict :=
                (if c = p0 then [] else ls2.tmp_datagram_dict) ++
                  [(⟨normTs td, c, pw, an, cx⟩ : RawEntry)] })
          (by show ls2.s.ch_ids = _
              rw [q5, hch]
              exact hch3)
          (by rw [← hch3]; exact hnd)
          hpost hg2
          (by show (if c = p0 then (-1 : Int) else ls2.tmp_num_ch_per_ping_parsed) + 1 = _
              rw [hAtArith]
              simp)
          (by show ((if c = p0 then [] else ls2.tmp_datagram_dict) ++ _).length = _
              rw [if_neg hcne, q8]
              simp [hbuf])
          hps'
      refine ⟨ls4, ?_, ?_, ?_, ?_, ?_, ?_, r6, ?_, ?_⟩
      · rw [runLoop_cons_ok hstep1, runLoop_cons_ok hstep2]
        exact hrunr
      · rw [r1]
        exact q1
      · rw [r2]
        exact q2
      · rw [r3]
        exact q3
      · rw [r4]
        exact q4
      · rw [r5]
        exact q5
      · rw [r7]
        congr 1
        simp [List.length_append]
        omega
      · rw [r8]
        simp [List.length_append]
        omega

/-- One complete cycle of parameter/data pairs in configured order commits
exactly one ping and preserves the per-channel storage invariant. -/
theorem runLoop_one_cycle (chs : List ChannelId) (sub : List Datagram) (ls : LoopState)
    (hch : ls.s.ch_ids = chs) (hnd : chs.Nodup) (hne : chs ≠ [])
    (hg : GoodDicts ls.s) (hps : PairSeq chs sub) :
    ∃ ls1, runLoop ls sub = (ls1, none) ∧
      ls1.s.ping_time.length = ls.s.ping_time.length + 1 ∧
      ls1.s.ch_ids = chs ∧
      GoodDicts ls1.s := by
  cases chs with
  | nil => exact absurd rfl hne
  | cons c0 rest =>
    cases hps with
    | cons _ tp td p pw an cx _ sub' hpcc hw hps' =>
      have hgc : (ls.s.parameters p.channel_id).isSome := by
        rw [hpcc]
        exact (hg c0 (by rw [hch]; simp)).1
      obtain ⟨ls2, hstep1, q1, q2, q3, q4, q5, q6, q7, q8, q9⟩ := step_param_good ls tp p hgc hw
      have hg2 : GoodDicts ls2.s := by
        intro cc hcc
        rw [q5] at hcc
        obtain ⟨a1, a2, a3, a4⟩ := hg cc hcc
        exact ⟨q6 cc a1, by rw [q2]; exact a2, by rw [q3]; exact a3, by rw [q4]; exact a4⟩
      have h0 : pyGet ls2.s.ch_ids 0 = some c0 := by
        rw [q5, hch]
        exact pyGet_cons_zero c0 rest
      have hAtArith : (if c0 = c0 then (-1 : Int) else ls2.tmp_num_ch_per_ping_parsed) + 1 =
          ((0 : Nat) : Int) := by
        rw [if_pos rfl]
        simp
      have hAt : pyGet ls2.s.ch_ids
          ((if c0 = c0 then (-1 : Int) else ls2.tmp_num_ch_per_ping_parsed) + 1) =
          some c0 := by
        rw [hAtArith, q5, hch, pyGet_nat]
        rfl
      cases hrest : rest with
      | nil =>
        -- single-channel configuration: the first data record commits
        have hLast : pyGet ls2.s.ch_ids (-1) = some c0 := by
          rw [q5, hch, hrest, pyGet_neg_one]
          rfl
        have hgd2 : ∀ cc ∈ ls2.s.ch_ids, (ls2.s.power_dict cc).isSome ∧
            (ls2.s.angle_dict cc).isSome ∧ (ls2.s.complex_dict cc).isSome :=
          fun cc hcc => ⟨(hg2 cc hcc).2.1, (hg2 cc hcc).2.2.1, (hg2 cc hcc).2.2.2⟩
        obtain ⟨ls3, hrawstep, w1, w2, w3, w4⟩ := stepRaw_commit_good
          { ls2 with num_datagrams_parsed := ls2.num_datagrams_parsed + 1 }
          (normTs td) c0 pw an cx p c0 c0 q9 hpcc h0 hAt hLast rfl
          (by rw [q5, hch, hrest]
              simp)
          (by rw [q5, hch, hrest]
              exact List.nodup_singleton c0)
          hgd2
        have hstep2 : step ls2 (.raw td c0 pw an cx) = (ls3, none) := hrawstep
        rw [hrest] at hps'
        cases hps' with
        | nil =>
          refine ⟨ls3, ?_, ?_, ?_, ?_⟩
          · rw [runLoop_cons_ok hstep1, runLoop_cons_ok hstep2]
            rfl
          · rw [w1, q1]
          · rw [w2, q5, hch, hrest]
          · intro cc hcc
            rw [w2, q5] at hcc
            have hcc2 : cc ∈ ls2.s.ch_ids := by rw [q5]; exact hcc
            obtain ⟨b2, b3, b4⟩ := w4 cc hcc2
            refine ⟨?_, b2, b3, b4⟩
            rw [w3]
            exact (hg2 cc hcc2).1
      | cons r0 rest' =>
        -- multi-channel: the first data record only starts the buffer
        obtain ⟨mid', cl, hmid⟩ : ∃ mid' cl, rest = mid' ++ [cl] := by
          rcases List.eq_nil_or_concat' rest with he | ⟨mid2, cl2, he⟩
          · rw [he] at hrest
            cases hrest
          · exact ⟨mid2, cl2, he⟩
        have hcl : rest.getLast? = some cl := by
          rw [hmid, List.getLast?_append_of_ne_nil mid' (List.cons_ne_nil cl [])]
          rfl
        have hc0rest : c0 ∉ rest := (List.nodup_cons.1 hnd).1
        have hclmem : cl ∈ rest := List.mem_of_mem_getLast? hcl
        have hc0cl : c0 ≠ cl := fun he => hc0rest (he ▸ hclmem)
        have hLast : pyGet ls2.s.ch_ids (-1) = some cl := by
          rw [q5, hch, pyGet_neg_one,
            show c0 :: rest = [c0] ++ rest by rfl,
            List.getLast?_append_of_ne_nil [c0] (by rw [hrest]; exact List.cons_ne_nil r0 rest'),
            hcl]
        have hnc : ¬(c0 = cl ∧ c0 = cl) := fun hcon => hc0cl hcon.1
        have hstep2 : step ls2 (.raw td c0 pw an cx) =
            ({ ls2 with
                num_datagrams_parsed := ls2.num_datagrams_parsed + 1
                tmp_num_ch_per_ping_parsed :=
                  (if c0 = c0 then -1 else ls2.tmp_num_ch_per_ping_parsed) + 1
                tmp_datagram_dict :=
                  (if c0 = c0 then [] else ls2.tmp_datagram_dict) ++
                    [(⟨normTs td, c0, pw, an, cx⟩ : RawEntry)] }, none) :=
          stepRaw_no_commit _ (normTs td) c0 pw an cx p c0 c0 cl q9 hpcc h0 hAt hLast hnc
        obtain ⟨subM, subL, hsubeq, hpsM, hpsL⟩ := pairSeq_append mid' [cl] sub'
          (by rw [← hmid]; exact hps')
        subst hsubeq
        have hchdec : c0 :: rest = c0 :: ([] ++ mid' ++ [cl]) := by
          rw [hmid]
          simp
        obtain ⟨ls4, hrunM, r1, r2, r3, r4, r5, r6, r7, r8⟩ :=
          runLoop_pairs_no_commit mid' [] [cl] c0 subM
            ({ ls2 with
                num_datagrams_parsed := ls2.num_datagrams_parsed + 1
                tmp_num_ch_per_ping_parsed :=
                  (if c0 = c0 then -1 else ls2.tmp_num_ch_per_ping_parsed) + 1
                tmp_datagram_dict :=
                  (if c0 = c0 then [] else ls2.tmp_datagram_dict) ++
                    [(⟨normTs td, c0, pw, an, cx⟩ : RawEntry)] })
            (by show ls2.s.ch_ids = _
                rw [q5, hch]
                exact hchdec)
            (by rw [← hchdec]; exact hnd)
            (List.cons_ne_nil cl [])
            hg2
            (by show (if c0 = c0 then (-1 : Int) else ls2.tmp_num_ch_per_ping_parsed) + 1 = _
                rw [hAtArith]
                rfl)
            (by show ((if c0 = c0 then [] else ls2.tmp_datagram_dict) ++ _).length = _
                rw [if_pos rfl]
                rfl)
            hpsM
        -- final pair for the last channel
        cases hpsL with
        | cons _ tpL tdL pL pwL anL cxL _ subL0 hpcL hwL hpsL0 =>
          cases hpsL0 with
          | nil =>
            have hgcL : (ls4.s.parameters pL.channel_id).isSome := by
              rw [hpcL]
              exact (r6 cl (by rw [r5, q5, hch, hmid]; simp)).1
            obtain ⟨ls5, hstepL1, z1, z2, z3, z4, z5, z6, z7, z8, z9⟩ :=
              step_param_good ls4 tpL pL hgcL hwL
            have hg5 : GoodDicts ls5.s := by
              intro cc hcc
              rw [z5] at hcc
              obtain ⟨a1, a2, a3, a4⟩ := r6 cc hcc
              exact ⟨z6 cc a1, by rw [z2]; exact a2, by rw [z3]; exact a3, by rw [z4]; exact a4⟩
            have hclc0 : cl ≠ c0 := fun he => hc0rest (he ▸ hclmem)
            have h0L : pyGet ls5.s.ch_ids 0 = some c0 := by
              rw [z5, r5, q5, hch]
              exact pyGet_cons_zero c0 rest
            have hAtLArith : (if cl = c0 then (-1 : Int) else ls5.tmp_num_ch_per_ping_parsed) + 1
                = ((mid'.length + 1 : Nat) : Int) := by
              rw [if_neg hclc0, z7, r7]
              push_cast
              simp
            have hAtL : pyGet ls5.s.ch_ids
                ((if cl = c0 then (-1 : Int) else ls5.tmp_num_ch_per_ping_parsed) + 1) =
                some cl := by
              rw [hAtLArith, z5, r5, q5, hch, pyGet_nat]
              show rest.get? mid'.length = some cl
              rw [hmid, List.get?_append_right (le_refl mid'.length)]
              simp
            have hLastL : pyGet ls5.s.ch_ids (-1) = some cl := by
              rw [z5, r5, q5, hch, pyGet_neg_one,
                show c0 :: rest = [c0] ++ rest by rfl,
                List.getLast?_append_of_ne_nil [c0]
                  (by rw [hrest]; exact List.cons_ne_nil r0 rest'),
                hcl]
            have hgd5 : ∀ cc ∈ ls5.s.ch_ids, (ls5.s.power_dict cc).isSome ∧
                (ls5.s.angle_dict cc).isSome ∧ (ls5.s.complex_dict cc).isSome :=
              fun cc hcc => ⟨(hg5 cc hcc).2.1, (hg5 cc hcc).2.2.1, (hg5 cc hcc).2.2.2⟩
            have hbufL : ls5.s.ch_ids.length ≤
                ((if cl = c0 then [] else ls5.tmp_datagram_dict) ++
                  [(⟨normTs tdL, cl, pwL, anL, cxL⟩ : RawEntry)]).length := by
              rw [if_neg hclc0, z8]
              rw [z5, r5, q5, hch, hmid]
              simp [r8]
            obtain ⟨ls6, hrawL, w1, w2, w3, w4⟩ := stepRaw_commit_good
              { ls5 with num_datagrams_parsed := ls5.num_datagrams_parsed + 1 }
              (normTs tdL) cl pwL anL cxL pL c0 cl z9 hpcL h0L hAtL hLastL rfl
              hbufL
              (by rw [z5, r5, q5, hch]; exact hnd)
              hgd5
            have hstepL2 : step ls5 (.raw tdL cl pwL anL cxL) = (ls6, none) := hrawL
            refine ⟨ls6, ?_, ?_, ?_, ?_⟩
            · rw [runLoop_cons_ok hstep1, runLoop_cons_ok hstep2,
                runLoop_append_ok _ hrunM, runLoop_cons_ok hstepL1,
                runLoop_cons_ok hstepL2]
              rfl
            · rw [w1, z1, r1, q1]
            · rw [w2, z5, r5, q5, hch, hrest]
            · intro cc hcc
              rw [w2, z5] at hcc
              have hcc5 : cc ∈ ls5.s.ch_ids := by rw [z5]; exact hcc
              obtain ⟨b2, b3, b4⟩ := w4 cc hcc5
              refine ⟨?_, b2, b3, b4⟩
              rw [w3]
              exact (hg5 cc hcc5).1

/-- `n` full cycles commit exactly `n` pings. -/
theorem runLoop_cycles (chs : List ChannelId) (n : Nat) (stream : List Datagram)
    (hcy : CyclesSeq chs n stream) :
    ∀ ls : LoopState, ls.s.ch_ids = chs → chs.Nodup → chs ≠ [] → GoodDicts ls.s →
    ∃ ls1, runLoop ls stream = (ls1, none) ∧
      ls1.s.ping_time.length = ls.s.ping_time.length + n ∧
      ls1.s.ch_ids = chs ∧ GoodDicts ls1.s := by
  induction hcy with
  | nil =>
    intro ls hch hnd hne hg
    exact ⟨ls, rfl, by simp, hch, hg⟩
  | cons n s t hp hc ih =>
    intro ls hch hnd hne hg
    obtain ⟨ls2, hr2, hp2, hch2, hg2⟩ := runLoop_one_cycle chs s ls hch hnd hne hg hp
    obtain ⟨ls3, hr3, hp3, hch3, hg3⟩ := ih ls2 hch2 hnd hne hg2
    refine ⟨ls3, ?_, ?_, hch3, hg3⟩
    · rw [runLoop_append_ok _ hr2]
      exact hr3
    · rw [hp3, hp2]
      omega

theorem lookup_isSome_of_mem_keys (cfg : List (ChannelId × ChannelConfig)) (c : ChannelId)
    (h : c ∈ cfg.map (fun kv => kv.1)) : (cfg.lookup c).isSome := by
  induction cfg with
  | nil => simp at h
  | cons kv rest ih =>
    simp only [List.map_cons, List.mem_cons] at h
    by_cases hce : c = kv.1
    · simp [List.lookup, hce]
    · have hbe : (c == kv.1) = false := by simp [hce]
      simp only [List.lookup, hbe]
      exact ih (h.resolve_left hce)

/-- One iteration of the channel-initialization loop of `load_ek80_raw`,
when the channel id is a key of the configuration payload. -/
theorem initChannelsLoop_cons (cfg : List (ChannelId × ChannelConfig)) (s : State)
    (ch : ChannelId) (rest : List ChannelId) (cc : ChannelConfig)
    (hcc : cfg.lookup ch = some cc) :
    initChannelsLoop (some cfg) s (ch :: rest) =
      initChannelsLoop (some cfg)
        { s with
            ping_data_dict_frequency :=
              updFun (updFun s.ping_data_dict_frequency ch (some none)) ch
                (some (some cc.transducer_frequency))
            power_dict := updFun s.power_dict ch (some [])
            angle_dict := updFun s.angle_dict ch (some [])
            complex_dict := updFun s.complex_dict ch (some [])
            parameters := updFun s.parameters ch (some emptyParamTable) } rest := by
  conv_lhs => rw [initChannelsLoop]
  dsimp only
  rw [hcc]

/-- The initialization loop of `load_ek80_raw` succeeds on the keys of the
configuration payload and installs the empty per-channel stores. -/
theorem initChannelsLoop_ok (cfg : List (ChannelId × ChannelConfig)) :
    ∀ (l : List ChannelId) (s : State),
    (∀ c ∈ l, (cfg.lookup c).isSome) →
    (initChannelsLoop (some cfg) s l).2 = none ∧
    (∀ c ∈ l, (initChannelsLoop (some cfg) s l).1.parameters c = some emptyParamTable ∧
      (initChannelsLoop (some cfg) s l).1.power_dict c = some [] ∧
      (initChannelsLoop (some cfg) s l).1.angle_dict c = some [] ∧
      (initChannelsLoop (some cfg) s l).1.complex_dict c = some []) ∧
    (∀ c, c ∉ l → (initChannelsLoop (some cfg) s l).1.parameters c = s.parameters c ∧
      (initChannelsLoop (some cfg) s l).1.power_dict c = s.power_dict c ∧
      (initChannelsLoop (some cfg) s l).1.angle_dict c = s.angle_dict c ∧
      (initChannelsLoop (some cfg) s l).1.complex_dict c = s.complex_dict c) ∧
    (initChannelsLoop (some cfg) s l).1.ping_time = s.ping_time ∧
    (initChannelsLoop (some cfg) s l).1.ch_ids = s.ch_ids ∧
    (initChannelsLoop (some cfg) s l).1.config_datagram = s.config_datagram := by
  intro l
  induction l with
  | nil =>
    intro s h
    exact ⟨rfl, by simp, fun c _ => ⟨rfl, rfl, rfl, rfl⟩, rfl, rfl, rfl⟩
  | cons ch rest ih =>
    intro s h
    obtain ⟨cc, hcc⟩ := Option.isSome_iff_exists.1 (h ch (List.mem_cons_self _ _))
    rw [initChannelsLoop_cons cfg s ch rest cc hcc]
    obtain ⟨e1, e2, e3, e4, e5, e6⟩ :=
      ih _ (fun c hcm => h c (List.mem_cons_of_mem ch hcm))
    refine ⟨e1, ?_, ?_, e4, e5, e6⟩
    · intro c hcm
      rcases List.mem_cons.1 hcm with hce | hcr
      · subst hce
        by_cases hcr2 : c ∈ rest
        · exact e2 c hcr2
        · obtain ⟨f1, f2, f3, f4⟩ := e3 c hcr2
          rw [f1, f2, f3, f4]
          simp [updFun]
      · exact e2 c hcr
    · intro c hcm
      have hcch : c ≠ ch := fun he => hcm (he ▸ List.mem_cons_self ch rest)
      have hcr : c ∉ rest := fun hr => hcm (List.mem_cons_of_mem ch hr)
      obtain ⟨f1, f2, f3, f4⟩ := e3 c hcr
      rw [f1, f2, f3, f4]
      simp [updFun, hcch]

/-- `load_ek80_raw` on a stream whose first record is a configuration
record: the first record is stored (timestamp-normalized) as the
configuration, its keys become the channel list, per-channel storage is
initialized, and the remaining records go to `_read_datagrams`. -/
theorem loadFile_config_ok (s : State) (ts : Nat) (cfg : List (ChannelId × ChannelConfig))
    (rest : List Datagram)
    (hinit : (initChannelsLoop (some cfg)
      { s with config_datagram := some (Datagram.xmlConfiguration (normTs ts) cfg)
               ch_ids := cfg.map (fun kv => kv.1) } (cfg.map (fun kv => kv.1))).2 = none) :
    loadFile s (Datagram.xmlConfiguration ts cfg :: rest) =
      readDatagrams (initChannelsLoop (some cfg)
        { s with config_datagram := some (Datagram.xmlConfiguration (normTs ts) cfg)
                 ch_ids := cfg.map (fun kv => kv.1) } (cfg.map (fun kv => kv.1))).1 rest := by
  unfold loadFile
  dsimp only [Datagram.withNormTs, Datagram.subtypeKeys, Datagram.configurationPayload]
  rw [hinit]

/-! ### Claim C9 -/

/-- C9: after processing any prefix of the input stream without error, every
configured channel's power, angle and complex sample sequences exist and
all three have exactly the length of the committed ping-time list — one
entry per channel is appended for all channels together at each commit.
(The configured ids are duplicate-free, being keys of the configuration
dict.) -/
theorem sample_dict_lengths_synced (s : State) (stream : List Datagram) (s1 : State)
    (hnd : s.ch_ids.Nodup) (hs : SyncedDicts s)
    (hrun : readDatagrams s stream = (s1, none)) : SyncedDicts s1 := by
  obtain ⟨ls1, h1, h2⟩ := readDatagrams_elim s stream s1 none hrun
  have h3 := runLoop_synced stream (mkLS s) ls1 hnd hs h1
  rw [← h2]
  exact h3.1

/-- Witness for C9: the loaded two-channel state runs scenario A without
error and the invariant holds afterwards (each channel has exactly one
power, angle and complex entry, matching the single committed ping). -/
theorem sample_dict_lengths_synced_witness :
    (sAB.ch_ids.Nodup ∧ SyncedDicts sAB ∧
      readDatagrams sAB scenarioA = ((readDatagrams sAB scenarioA).1, none)) ∧
    SyncedDicts (readDatagrams sAB scenarioA).1 :=
  ⟨⟨by decide, by decide, rfl⟩,
   sample_dict_lengths_synced sAB scenarioA (readDatagrams sAB scenarioA).1
     (by decide) (by decide) rfl⟩

/-! ### Claim C3 -/

/-- C3: for a well-formed input — a configuration with duplicate-free
channel keys followed by `n` full cycles, each data record immediately
preceded by its matching parameter record and data arriving in exact
configured cycle order — the run completes without error and commits
exactly `n` pings, which equals `N / K` for `N` data records over `K`
channels.  The second conjunct checks spec scenario A concretely: channels
[A, B] with stream parameter(A), data(A), parameter(B), data(B) commit
exactly one ping whose two channel entries are, in order, channel A's and
channel B's payloads. -/
theorem well_formed_stream_ping_count :
    (∀ (ts : Nat) (cfg : List (ChannelId × ChannelConfig)) (n : Nat)
        (stream : List Datagram),
      (cfg.map (fun kv => kv.1)).Nodup → cfg ≠ [] →
      CyclesSeq (cfg.map (fun kv => kv.1)) n stream →
      (loadFile initState (Datagram.xmlConfiguration ts cfg :: stream)).2 = none ∧
      (loadFile initState (Datagram.xmlConfiguration ts cfg :: stream)).1.ping_time.length
        = n ∧
      countRaw stream = n * cfg.length ∧
      (loadFile initState (Datagram.xmlConfiguration ts cfg :: stream)).1.ping_time.length
        = countRaw stream / cfg.length) ∧
    ((loadFile initState (cfgAB :: scenarioA)).2 = none ∧
     (loadFile initState (cfgAB :: scenarioA)).1.ping_time = [normTs 2000] ∧
     (loadFile initState (cfgAB :: scenarioA)).1.power_dict "A" = some [10] ∧
     (loadFile initState (cfgAB :: scenarioA)).1.power_dict "B" = some [20]) := by
  constructor
  · intro ts cfg n stream hnd hne hcy
    have hlk : ∀ c ∈ cfg.map (fun kv => kv.1), (cfg.lookup c).isSome :=
      fun c hc => lookup_isSome_of_mem_keys cfg c hc
    obtain ⟨e1, e2, e3, e4, e5, e6⟩ := initChannelsLoop_ok cfg (cfg.map (fun kv => kv.1))
      { initState with
          config_datagram := some (Datagram.xmlConfiguration (normTs ts) cfg)
          ch_ids := cfg.map (fun kv => kv.1) } hlk
    have hload := loadFile_config_ok initState ts cfg stream e1
    have hch2 : (initChannelsLoop (some cfg)
        { initState with
            config_datagram := some (Datagram.xmlConfiguration (normTs ts) cfg)
            ch_ids := cfg.map (fun kv => kv.1) }
        (cfg.map (fun kv => kv.1))).1.ch_ids = cfg.map (fun kv => kv.1) := e5
    have hg2 : GoodDicts (initChannelsLoop (some cfg)
        { initState with
            config_datagram := some (Datagram.xmlConfiguration (normTs ts) cfg)
            ch_ids := cfg.map (fun kv => kv.1) }
        (cfg.map (fun kv => kv.1))).1 := by
      intro c hc
      rw [hch2] at hc
      obtain ⟨g1, g2, g3, g4⟩ := e2 c hc
      rw [g1, g2, g3, g4]
      exact ⟨rfl, rfl, rfl, rfl⟩
    have hkne : cfg.map (fun kv => kv.1) ≠ [] :=
      fun h => hne (List.map_eq_nil.1 h)
    have hch2m : (mkLS (initChannelsLoop (some cfg)
        { initState with
            config_datagram := some (Datagram.xmlConfiguration (normTs ts) cfg)
            ch_ids := cfg.map (fun kv => kv.1) }
        (cfg.map (fun kv => kv.1))).1).s.ch_ids = cfg.map (fun kv => kv.1) := hch2
    have hg2m : GoodDicts (mkLS (initChannelsLoop (some cfg)
        { initState with
            config_datagram := some (Datagram.xmlConfiguration (normTs ts) cfg)
            ch_ids := cfg.map (fun kv => kv.1) }
        (cfg.map (fun kv => kv.1))).1).s := hg2
    obtain ⟨ls1, hr, hlen, hch3, hg3⟩ :=
      runLoop_cycles (cfg.map (fun kv => kv.1)) n stream hcy
        (mkLS (initChannelsLoop (some cfg)
          { initState with
              config_datagram := some (Datagram.xmlConfiguration (normTs ts) cfg)
              ch_ids := cfg.map (fun kv => kv.1) }
          (cfg.map (fun kv => kv.1))).1)
        hch2m hnd hkne hg2m
    have hread : readDatagrams (initChannelsLoop (some cfg)
        { initState with
            config_datagram := some (Datagram.xmlConfiguration (normTs ts) cfg)
            ch_ids := cfg.map (fun kv => kv.1) }
        (cfg.map (fun kv => kv.1))).1 stream = (ls1.s, none) := by
      unfold readDatagrams
      rw [hr]
    rw [hload, hread]
    have hcount : countRaw stream = n * cfg.length := by
      rw [countRaw_cyclesSeq _ _ _ hcy, List.length_map]
    have hping0 : ls1.s.ping_time.length = n := by
      rw [hlen]
      have : (initChannelsLoop (some cfg)
          { initState with
              config_datagram := some (Datagram.xmlConfiguration (normTs ts) cfg)
              ch_ids := cfg.map (fun kv => kv.1) }
          (cfg.map (fun kv => kv.1))).1.ping_time = [] := e4
      show (initChannelsLoop (some cfg) _ _).1.ping_time.length + n = n
      rw [this]
      simp
    refine ⟨rfl, hping0, hcount, ?_⟩
    rw [hping0, hcount, Nat.mul_div_cancel n (List.length_pos.2 hne)]
  · exact ⟨by decide, by decide, by decide, by decide⟩

/-- Witness for C3: the two-channel configuration with one full cycle
(spec scenario A): no error, exactly one committed ping, and N / K = 2 / 2
= 1. -/
theorem well_formed_stream_ping_count_witness :
    ((["A", "B"] : List ChannelId).Nodup ∧
      ([("A", (⟨38000⟩ : ChannelConfig)), ("B", ⟨120000⟩)] :
        List (ChannelId × ChannelConfig)) ≠ [] ∧
      CyclesSeq ["A", "B"] 1 scenarioA) ∧
    ((loadFile initState (cfgAB :: scenarioA)).2 = none ∧
     (loadFile initState (cfgAB :: scenarioA)).1.ping_time.length = 1 ∧
     countRaw scenarioA = 1 * 2) := by
  have hps : PairSeq (["A", "B"] : List ChannelId) scenarioA :=
    PairSeq.cons "A" 1000 2000 (mkParam "A" 38000) 10 11 12 ["B"]
      [Datagram.xmlParameter 3000 (mkParam "B" 120000), Datagram.raw 4000 "B" 20 21 22]
      rfl (by decide)
      (PairSeq.cons "B" 3000 4000 (mkParam "B" 120000) 20 21 22 [] [] rfl (by decide)
        PairSeq.nil)
  have hcy : CyclesSeq (["A", "B"] : List ChannelId) 1 scenarioA :=
    CyclesSeq.cons 0 scenarioA [] hps CyclesSeq.nil
  have h := well_formed_stream_ping_count.1 0
    [("A", (⟨38000⟩ : ChannelConfig)), ("B", ⟨120000⟩)] 1 scenarioA
    (by decide) (by decide) hcy
  exact ⟨⟨by decide, by decide, hcy⟩, h.1, h.2.1, h.2.2.1⟩

/-! ### Claim C5, amended -/

/-- C5 amended: reaching end of stream with a partially filled cycle buffer
is not an error: the run returns normally, the committed ping count is
exactly that of the complete cycles, and every ping output (ping times and
the three sample dicts) is identical to what running the complete cycles
alone produces — the partial buffer contributes nothing.  However no
truncation advisory of any kind is reported (see the counterexample): the
caller-visible outcome carries no trace of the truncation. -/
theorem truncation_returns_normally (chs pref post : List ChannelId)
    (cyc psub : List Datagram) (s : State) (n : Nat)
    (hnd : chs.Nodup) (hchs : s.ch_ids = chs) (hsplit : chs = pref ++ post)
    (hpre : pref ≠ []) (hpost : post ≠ [])
    (hg : GoodDicts s) (hcy : CyclesSeq chs n cyc) (hps : PairSeq pref psub) :
    (readDatagrams s (cyc ++ psub)).2 = none ∧
    (readDatagrams s (cyc ++ psub)).1.ping_time = (readDatagrams s cyc).1.ping_time ∧
    (readDatagrams s (cyc ++ psub)).1.power_dict = (readDatagrams s cyc).1.power_dict ∧
    (readDatagrams s (cyc ++ psub)).1.angle_dict = (readDatagrams s cyc).1.angle_dict ∧
    (readDatagrams s (cyc ++ psub)).1.complex_dict =
      (readDatagrams s cyc).1.complex_dict ∧
    (readDatagrams s (cyc ++ psub)).1.ping_time.length = s.ping_time.length + n := by
  have hkne : chs ≠ [] := by
    rw [hsplit]
    intro h
    exact hpre (List.append_eq_nil.1 h).1
  obtain ⟨ls1, hr1, hlen1, hch1, hg1⟩ := runLoop_cycles chs n cyc hcy (mkLS s)
    (show (mkLS s).s.ch_ids = chs from hchs) hnd hkne
    (show GoodDicts (mkLS s).s from hg)
  have hreadc : readDatagrams s cyc = (ls1.s, none) := by
    unfold readDatagrams
    rw [hr1]
  cases pref with
  | nil => exact absurd rfl hpre
  | cons c0 prefRest =>
    cases hps with
    | cons _ tp td p pw an cx _ psubRest hpcc hw hps2 =>
      have hc0mem : c0 ∈ chs := by
        rw [hsplit]
        simp
      have hgc : (ls1.s.parameters p.channel_id).isSome := by
        rw [hpcc]
        exact (hg1 c0 (by rw [hch1]; exact hc0mem)).1
      obtain ⟨ls2, hstep1, q1, q2, q3, q4, q5, q6, q7, q8, q9⟩ :=
        step_param_good ls1 tp p hgc hw
      have hg2 : GoodDicts ls2.s := by
        intro cc hcc
        rw [q5] at hcc
        obtain ⟨a1, a2, a3, a4⟩ := hg1 cc hcc
        exact ⟨q6 cc a1, by rw [q2]; exact a2, by rw [q3]; exact a3, by rw [q4]; exact a4⟩
      have hsplitc : chs = c0 :: (prefRest ++ post) := by
        rw [hsplit]
        rfl
      have h0 : pyGet ls2.s.ch_ids 0 = some c0 := by
        rw [q5, hch1, hsplitc]
        exact pyGet_cons_zero c0 _
      have hAtArith : (if c0 = c0 then (-1 : Int) else ls2.tmp_num_ch_per_ping_parsed) + 1 =
          ((0 : Nat) : Int) := by
        rw [if_pos rfl]
        simp
      have hAt : pyGet ls2.s.ch_ids
          ((if c0 = c0 then (-1 : Int) else ls2.tmp_num_ch_per_ping_parsed) + 1) =
          some c0 := by
        rw [hAtArith, q5, hch1, hsplitc, pyGet_nat]
        rfl
      obtain ⟨cl, hcl⟩ : ∃ cl, post.getLast? = some cl := by
        cases hgl : post.getLast? with
        | none => exact absurd (List.getLast?_eq_none_iff.1 hgl) hpost
        | some cl => exact ⟨cl, rfl⟩
      have hclmem : cl ∈ post := List.mem_of_mem_getLast? hcl
      have hndc : (c0 :: (prefRest ++ post)).Nodup := by
        rw [← hsplitc]
        exact hnd
      have hc0cl : c0 ≠ cl := by
        intro he
        exact (List.nodup_cons.1 hndc).1
          (he ▸ List.mem_append_right prefRest hclmem)
      have hLast : pyGet ls2.s.ch_ids (-1) = some cl := by
        rw [q5, hch1, hsplitc, pyGet_neg_one,
          show c0 :: (prefRest ++ post) = ((c0 :: prefRest) ++ post) by rfl,
          List.getLast?_append_of_ne_nil _ hpost, hcl]
      have hnc : ¬(c0 = cl ∧ c0 = cl) := fun hcon => hc0cl hcon.1
      have hstep2 : step ls2 (.raw td c0 pw an cx) =
          ({ ls2 with
              num_datagrams_parsed := ls2.num_datagrams_parsed + 1
              tmp_num_ch_per_ping_parsed :=
                (if c0 = c0 then -1 else ls2.tmp_num_ch_per_ping_parsed) + 1
              tmp_datagram_dict :=
                (if c0 = c0 then [] else ls2.tmp_datagram_dict) ++
                  [(⟨normTs td, c0, pw, an, cx⟩ : RawEntry)] }, none) :=
        stepRaw_no_commit _ (normTs td) c0 pw an cx p c0 c0 cl q9 hpcc h0 hAt hLast hnc
      obtain ⟨ls4, hrunM, r1, r2, r3, r4, r5, r6, r7, r8⟩ :=
        runLoop_pairs_no_commit prefRest [] post c0 psubRest
          ({ ls2 with
              num_datagrams_parsed := ls2.num_datagrams_parsed + 1
              tmp_num_ch_per_ping_parsed :=
                (if c0 = c0 then -1 else ls2.tmp_num_ch_per_ping_parsed) + 1
              tmp_datagram_dict :=
                (if c0 = c0 then [] else ls2.tmp_datagram_dict) ++
                  [(⟨normTs td, c0, pw, an, cx⟩ : RawEntry)] })
          (by show ls2.s.ch_ids = _
              rw [q5, hch1, hsplitc]
              simp)
          (by simpa using hndc)
          hpost hg2
          (by show (if c0 = c0 then (-1 : Int) else ls2.tmp_num_ch_per_ping_parsed) + 1 = _
              rw [hAtArith]
              rfl)
          (by show ((if c0 = c0 then [] else ls2.tmp_datagram_dict) ++ _).length = _
              rw [if_pos rfl]
              rfl)
          hps2
      have hrun : readDatagrams s (cyc ++
          (Datagram.xmlParameter tp p :: Datagram.raw td c0 pw an cx :: psubRest)) =
          (ls4.s, none) := by
        unfold readDatagrams
        rw [runLoop_append_ok _ hr1, runLoop_cons_ok hstep1, runLoop_cons_ok hstep2]
        rw [hrunM]
      rw [hrun, hreadc]
      refine ⟨rfl, ?_, ?_, ?_, ?_, ?_⟩
      · rw [r1]
        exact q1
      · rw [r2]
        exact q2
      · rw [r3]
        exact q3
      · rw [r4]
        exact q4
      · rw [r1]
        show ls2.s.ping_time.length = _
        rw [q1]
        exact hlen1

/-- Witness for the amended C5: spec scenario B — channels [A, B], stream
parameter(A), data(A), end of stream — returns without error, commits zero
pings, and its outputs are identical to those of the empty stream. -/
theorem truncation_returns_normally_witness :
    ((["A", "B"] : List ChannelId).Nodup ∧ sAB.ch_ids = ["A", "B"] ∧
      (["A", "B"] : List ChannelId) = ["A"] ++ ["B"] ∧ GoodDicts sAB ∧
      CyclesSeq ["A", "B"] 0 [] ∧
      PairSeq ["A"] [Datagram.xmlParameter 1000 (mkParam "A" 38000),
        Datagram.raw 2000 "A" 10 11 12]) ∧
    ((readDatagrams sAB (scenarioA.take 2)).2 = none ∧
     (readDatagrams sAB (scenarioA.take 2)).1.ping_time.length = sAB.ping_time.length + 0) := by
  have hps : PairSeq (["A"] : List ChannelId)
      [Datagram.xmlParameter 1000 (mkParam "A" 38000), Datagram.raw 2000 "A" 10 11 12] :=
    PairSeq.cons "A" 1000 2000 (mkParam "A" 38000) 10 11 12 [] [] rfl (by decide) PairSeq.nil
  have h := truncation_returns_normally ["A", "B"] ["A"] ["B"] []
    [Datagram.xmlParameter 1000 (mkParam "A" 38000), Datagram.raw 2000 "A" 10 11 12]
    sAB 0 (by decide) (by decide) (by decide) (by decide) (by decide) (by decide)
    CyclesSeq.nil hps
  exact ⟨⟨by decide, by decide, by decide, by decide, CyclesSeq.nil, hps⟩, h.1, h.2.2.2.2.2⟩

/-! ### Claim C4 -/

/-- C4: loading consumes exactly the first record pulled from the source as
the configuration record: when it is a configuration record, the stored
configuration and the channel list come from it alone and all remaining
records are handed to the demultiplexer; when it is not, the load fails
with a `KeyError` — the structural boundary failure playing the spec's
FormatError role — which is distinct from the mid-stream ProtocolError
(`ValueError`).  An unknown-subtype XML first record is assumed to carry a
non-empty payload, per the input contract. -/
theorem load_first_record_contract :
    (∀ (s : State) (first : Datagram) (rest : List Datagram),
      (∀ ts cfg, first ≠ Datagram.xmlConfiguration ts cfg) →
      (∀ ts st ks, first = Datagram.xmlOther ts st ks → ks ≠ []) →
      (loadFile s (first :: rest)).2 = some PyErr.keyError ∧
      PyErr.keyError ≠ PyErr.valueError) ∧
    (∀ (s : State) (ts : Nat) (cfg : List (ChannelId × ChannelConfig))
        (rest : List Datagram),
      loadFile s (Datagram.xmlConfiguration ts cfg :: rest) =
        readDatagrams (initChannelsLoop (some cfg)
          { s with
              config_datagram := some (Datagram.xmlConfiguration (normTs ts) cfg)
              ch_ids := cfg.map (fun kv => kv.1) } (cfg.map (fun kv => kv.1))).1 rest ∧
      (initChannelsLoop (some cfg)
        { s with
            config_datagram := some (Datagram.xmlConfiguration (normTs ts) cfg)
            ch_ids := cfg.map (fun kv => kv.1) }
        (cfg.map (fun kv => kv.1))).1.config_datagram =
        some (Datagram.xmlConfiguration (normTs ts) cfg) ∧
      (initChannelsLoop (some cfg)
        { s with
            config_datagram := some (Datagram.xmlConfiguration (normTs ts) cfg)
            ch_ids := cfg.map (fun kv => kv.1) }
        (cfg.map (fun kv => kv.1))).1.ch_ids = cfg.map (fun kv => kv.1)) := by
  constructor
  · intro s first rest hnc hko
    refine ⟨?_, by decide⟩
    cases first with
    | xmlConfiguration ts cfg => exact absurd rfl (hnc ts cfg)
    | xmlEnvironment ts env => rfl
    | xmlParameter ts p => rfl
    | xmlOther ts st ks =>
      cases hks : ks with
      | nil => exact absurd hks (hko ts st ks rfl)
      | cons k ks2 =>
        subst hks
        rfl
    | raw ts c pw an cx => rfl
    | nme ts msg => rfl
    | mru ts hd pt rl hv => rfl
    | fil ts c st co df => rfl
    | tag ts => rfl
  · intro s ts cfg rest
    have hlk : ∀ c ∈ cfg.map (fun kv => kv.1), (cfg.lookup c).isSome :=
      fun c hc => lookup_isSome_of_mem_keys cfg c hc
    obtain ⟨e1, e2, e3, e4, e5, e6⟩ := initChannelsLoop_ok cfg (cfg.map (fun kv => kv.1))
      { s with
          config_datagram := some (Datagram.xmlConfiguration (normTs ts) cfg)
          ch_ids := cfg.map (fun kv => kv.1) } hlk
    exact ⟨loadFile_config_ok s ts cfg rest e1, e6, e5⟩

/-- Witness for C4: a positioning sentence as first record makes the load
fail with `KeyError`; with the two-channel configuration record first, the
stored configuration is exactly that (normalized) record and the channel
list is its key list. -/
theorem load_first_record_contract_witness :
    ((loadFile initState [Datagram.nme 0 "x", cfgAB]).2 = some PyErr.keyError ∧
      PyErr.keyError ≠ PyErr.valueError) ∧
    (initChannelsLoop (some [("A", (⟨38000⟩ : ChannelConfig)), ("B", ⟨120000⟩)])
      { initState with
          config_datagram := some (Datagram.xmlConfiguration (normTs 0)
            [("A", ⟨38000⟩), ("B", ⟨120000⟩)])
          ch_ids := ([("A", (⟨38000⟩ : ChannelConfig)), ("B", ⟨120000⟩)]).map
            (fun kv => kv.1) }
      (([("A", (⟨38000⟩ : ChannelConfig)), ("B", ⟨120000⟩)]).map
        (fun kv => kv.1))).1.config_datagram =
      some (Datagram.xmlConfiguration (normTs 0) [("A", ⟨38000⟩), ("B", ⟨120000⟩)]) :=
  ⟨load_first_record_contract.1 initState (Datagram.nme 0 "x") [cfgAB]
      (by intro ts cfg h; cases h) (by intro ts st ks h; cases h),
   (load_first_record_contract.2 initState 0
      [("A", ⟨38000⟩), ("B", ⟨120000⟩)] scenarioA).2.1⟩

end EK80
